import Mathlib
/-!
Verification of the image-annotation tool (`image-annnotating-tool`).

This file gives a shallow embedding of the algorithmic core of the repository:

* the COCO export utilities (`src/utils/COCOUtils.ts`): path-command
  flattening, shoelace area, annotation building, and the zod schema
  validator;
* the color utilities (`src/utils/colors.ts`): `hexToRgba`, `rgbaToHex`;
* `src/utils/classUtils.ts`: `getClassFromColor`;
* the Scene/History engine of `src/components/Canvas/Canvas.tsx`
  (the current component in that file, lines 978-1737): snapshot history
  (`saveCanvasState`), `undo`, the polygon tool's `handleMouseDown`,
  `removeAnnotation`, and the `after:render` snapshot hook.

JavaScript numbers are modelled as `ℚ` (the code performs only field
operations and comparisons on them), strings as `List Char`, `T | null`
as `Option T`, and thrown exceptions as `Option`/sum results.
-/
/-! ## Generic list helpers -/
/-! ## COCO utilities: path-command flattening (`buildPathAnnotation`) -/
/-- A fabric.js path command as it appears in `path.path`: a letter tag
followed by numeric arguments (e.g. `["C", x1, y1, x2, y2, x, y]`). -/
structure PathCmd where
  cmd : String
  args : List ℚ
deriving DecidableEq, Repr
/-- JS `args.slice(-2)`: the last two arguments (the whole list when it is
shorter than two). -/
def lastTwo (args : List ℚ) : List ℚ := args.drop (args.length - 2)
/-- One step of the point-extraction loop of `buildPathAnnotation`
(`src/utils/COCOUtils.ts` lines 197-235).  The state is the collected point
list together with `currentX`/`currentY`; missing arguments default to `0`
(the `?? 0` in the source). -/
def pathStep (st : List (ℚ × ℚ) × ℚ × ℚ) (c : PathCmd) : List (ℚ × ℚ) × ℚ × ℚ :=
  match st with
  | (points, curX, curY) =>
    if c.cmd = "M" then
      let x := c.args.getD 0 0
      let y := c.args.getD 1 0
      (points ++ [(x, y)], x, y)
    else if c.cmd = "L" then
      let x := c.args.getD 0 0
      let y := c.args.getD 1 0
      (points ++ [(x, y)], x, y)
    else if c.cmd = "C" then
      let l2 := lastTwo c.args
      let x := l2.getD 0 0
      let y := l2.getD 1 0
      (points ++ [(x, y)], x, y)
    else if c.cmd = "Q" then
      let l2 := lastTwo c.args
      let x := l2.getD 0 0
      let y := l2.getD 1 0
      (points ++ [(x, y)], x, y)
    else if c.cmd = "Z" then
      (if points.length > 0 then points ++ [points.getD 0 (0, 0)] else points, curX, curY)
    else
      (points, curX, curY)
/-- The ordered point list `buildPathAnnotation` extracts from a path's
command list. -/
def pathPointsOfCmds (cmds : List PathCmd) : List (ℚ × ℚ) :=
  (cmds.foldl pathStep ([], 0, 0)).1
/-- Spec-side restatement of the flattening rule (spec §4.1 `pathToPoints`):
move/line commands contribute their endpoint, cubic/quadratic commands only
their final endpoint (control points are never sampled), a close command
appends a copy of the first collected point.  Stated without the
`currentX`/`currentY` state to compare against the source definition. -/
def pathToPointsSpecStep (points : List (ℚ × ℚ)) (c : PathCmd) : List (ℚ × ℚ) :=
  if c.cmd = "M" ∨ c.cmd = "L" then
    points ++ [(c.args.getD 0 0, c.args.getD 1 0)]
  else if c.cmd = "C" ∨ c.cmd = "Q" then
    points ++ [((lastTwo c.args).getD 0 0, (lastTwo c.args).getD 1 0)]
  else if c.cmd = "Z" then
    match points with
    | [] => []
    | p :: ps => (p :: ps) ++ [p]
  else points
/-- Spec-side `pathToPoints`. -/
def pathToPointsSpec (cmds : List PathCmd) : List (ℚ × ℚ) :=
  cmds.foldl pathToPointsSpecStep []
/-! ## COCO utilities: annotation building (`src/utils/COCOUtils.ts`) -/
/-- A class from the class catalog (`~/Types/Class`). -/
structure Cls where
  id : Int
  name : List Char
  color : List Char
deriving DecidableEq, Repr
/-- Kind tag of an input annotation (`type: "polygon" | "path"`). -/
inductive AnnType where
  | polygon
  | path
deriving DecidableEq, Repr
/-- A fabric `Polygon` as read by the export code: its `points` and the
`left`/`top`/`width`/`height` fields (possibly `undefined`, hence
`Option`). -/
structure PolygonObj where
  points : List (ℚ × ℚ)
  left : Option ℚ
  top : Option ℚ
  width : Option ℚ
  height : Option ℚ
deriving DecidableEq, Repr
/-- A bounding rectangle, the result of `pathObj.getBoundingRect()`. -/
structure BRect where
  left : ℚ
  top : ℚ
  width : ℚ
  height : ℚ
deriving DecidableEq, Repr
/-- A fabric `Path` as read by the export code: its command list and its
bounding rectangle (`getBoundingRect()` is a fabric library call, so the
rectangle is modelled as input data carried by the object). -/
structure PathObj where
  path : List PathCmd
  boundingRect : BRect
deriving DecidableEq, Repr
/-- The scene object referenced by an annotation. -/
inductive AnnObj where
  | poly (p : PolygonObj)
  | path (p : PathObj)
deriving DecidableEq, Repr
/-- An input annotation (`Annotation` in `COCOUtils.ts`): kind tag, owning
class (`class: Class | null`, renamed `cls` as `class` is reserved), and the
referenced object. -/
structure Ann where
  type : AnnType
  cls : Option Cls
  object : AnnObj
deriving DecidableEq, Repr
/-- `annotation.object as Polygon`: the unchecked TS cast.  On a path
object the cast is wrong and all fields read as `undefined`; that case is
modelled by the empty polygon record. -/
def asPolygon (o : AnnObj) : PolygonObj :=
  match o with
  | .poly p => p
  | .path _ => ⟨[], none, none, none, none⟩
/-- `annotation.object as Path`, the symmetric unchecked cast. -/
def asPath (o : AnnObj) : PathObj :=
  match o with
  | .path p => p
  | .poly _ => ⟨[], ⟨0, 0, 0, 0⟩⟩
/-- An emitted COCO annotation (`COCOAnnotation` interface): `image_id` and
`category_id` are typed `number | null` in the source. -/
structure CocoAnn where
  id : Int
  image_id : Option Int
  category_id : Option Int
  segmentation : List (List ℚ)
  area : ℚ
  bbox : List ℚ
  iscrowd : Int
deriving DecidableEq, Repr
/-- JS `x || 0` on a possibly-undefined number (`polygon.left || 0`):
`undefined` and `0` both give `0`. -/
def orZero (o : Option ℚ) : ℚ := o.getD 0
/-- The shoelace reduction of `buildPolygonAnnotation` /
`buildPathAnnotation`: `|Σ (x_i·y_{i+1} − x_{i+1}·y_i)| / 2` with
wraparound indexing (`arr[(i+1) % arr.length]`; the `?? 0` fallbacks of the
source are the `getD` defaults). -/
def shoelace (pts : List (ℚ × ℚ)) : ℚ :=
  |(pts.enum.foldl
      (fun sum ip =>
        let next := pts.getD ((ip.1 + 1) % pts.length) (0, 0)
        sum + (ip.2.1 * next.2 - next.1 * ip.2.2)) 0) / 2|
/-- Flatten points into `[x1, y1, x2, y2, ...]` (`flatMap` in the source). -/
def flattenPts (pts : List (ℚ × ℚ)) : List ℚ :=
  pts.flatMap (fun p => [p.1, p.2])
/-- `buildPolygonAnnotation` (`COCOUtils.ts` lines 152-184).  The source
calls `generateRandomId()` for the `id` field; the generated id is passed
in as `annId` to keep the function pure. -/
def buildPolygonAnn (polygon : PolygonObj) (catId : Int) (imageId : Option Int)
    (annId : Int) : CocoAnn :=
  let points := polygon.points
  let segmentation := flattenPts points
  let area := shoelace points
  { id := annId
    image_id := imageId
    category_id := some catId
    segmentation := [segmentation]
    area := area
    bbox := [orZero polygon.left, orZero polygon.top,
             orZero polygon.width, orZero polygon.height]
    iscrowd := 0 }
/-- `buildPathAnnotation` (`COCOUtils.ts` lines 187-262), with the same
`annId` treatment for `generateRandomId()`. -/
def buildPathAnn (pathObj : PathObj) (catId : Int) (imageId : Option Int)
    (annId : Int) : CocoAnn :=
  let points := pathPointsOfCmds pathObj.path
  let segmentation := flattenPts points
  let area := shoelace points
  let boundingRect := pathObj.boundingRect
  { id := annId
    image_id := imageId
    category_id := some catId
    segmentation := [segmentation]
    area := area
    bbox := [boundingRect.left, boundingRect.top,
             boundingRect.width, boundingRect.height]
    iscrowd := 0 }
/-- Lookup in a JS `Record<number, number>` (`categoryMap[k]`), `undefined`
when the key is absent. -/
def recLookup (m : List (Int × Int)) (k : Int) : Option Int :=
  (m.find? (fun e => e.1 = k)).map (fun e => e.2)
/-- The per-annotation body of `buildAnnotationsData` (`COCOUtils.ts` lines
271-286): branch on the kind tag, compute `catId`, and call the matching
builder with the `?? 0` defaults of the source. -/
def buildOneAnnData (categoryMap : List (Int × Int)) (imageId : Option Int)
    (annId : Int) (a : Ann) : Option CocoAnn :=
  match a.type with
  | .polygon =>
    let catId : Option Int :=
      match a.cls with
      | some c => recLookup categoryMap c.id
      | none => none
    some (buildPolygonAnn (asPolygon a.object) (catId.getD 0)
      (some (imageId.getD 0)) annId)
  | .path =>
    let catId : Option Int :=
      match a.cls with
      | some c => recLookup categoryMap c.id
      | none => some 0
    some (buildPathAnn (asPath a.object) (catId.getD 0)
      (some (imageId.getD 0)) annId)
/-- `buildAnnotationsData` (`COCOUtils.ts` lines 265-288): map each input
annotation to a COCO annotation, dropping the `null` results (unreachable
for the two-constructor kind tag).  `idSupply` models the stream of
`generateRandomId()` results, one per call in input order. -/
def buildAnnotationsData (annos : List Ann) (categoryMap : List (Int × Int))
    (imageId : Option Int) (idSupply : Nat → Int) : List CocoAnn :=
  (annos.enum.map (fun p => buildOneAnnData categoryMap imageId (idSupply p.1) p.2)).filterMap id
/-- Total version of the `buildAnnotationsData` body (the `null` branch of
the source is unreachable for the two-constructor kind tag). -/
def buildOneTotal (categoryMap : List (Int × Int)) (imageId : Option Int)
    (annId : Int) (a : Ann) : CocoAnn :=
  match a.type with
  | .polygon =>
    let catId : Option Int :=
      match a.cls with
      | some c => recLookup categoryMap c.id
      | none => none
    buildPolygonAnn (asPolygon a.object) (catId.getD 0) (some (imageId.getD 0)) annId
  | .path =>
    let catId : Option Int :=
      match a.cls with
      | some c => recLookup categoryMap c.id
      | none => some 0
    buildPathAnn (asPath a.object) (catId.getD 0) (some (imageId.getD 0)) annId

/-! ## Color utilities (`src/utils/colors.ts`) and `classUtils.ts` -/
/-- Decimal digit test (`\d`), on the character's code point. -/
def isDigitCh (c : Char) : Bool := 48 ≤ c.toNat ∧ c.toNat ≤ 57
/-- Hex digit test (the regex class `[0-9A-Fa-f]`). -/
def isHexDigitCh (c : Char) : Bool :=
  (48 ≤ c.toNat ∧ c.toNat ≤ 57) ∨ (97 ≤ c.toNat ∧ c.toNat ≤ 102)
    ∨ (65 ≤ c.toNat ∧ c.toNat ≤ 70)
/-- JS `\s` whitespace (the ASCII members; the code only ever meets the
plain space). -/
def isWsCh (c : Char) : Bool :=
  c = ' ' ∨ c = '\t' ∨ c = '\n' ∨ c = '\r' ∨ c.toNat = 11 ∨ c.toNat = 12
/-- Value of one hex digit, as `parseInt(·, 16)` assigns it. -/
def hexDigitVal (c : Char) : Nat :=
  if 48 ≤ c.toNat ∧ c.toNat ≤ 57 then c.toNat - 48
  else if 97 ≤ c.toNat ∧ c.toNat ≤ 102 then c.toNat - 87
  else if 65 ≤ c.toNat ∧ c.toNat ≤ 70 then c.toNat - 55
  else 0
/-- `parseInt(·, 10)` on an all-digit string. -/
def decVal (l : List Char) : Nat :=
  l.foldl (fun acc c => acc * 10 + (c.toNat - 48)) 0
/-- Decimal rendering of a natural number (JS number-to-string for
integers). -/
def natToDec (n : Nat) : List Char := Nat.toDigits 10 n
/-- `n.toString(16)` (lowercase hex). -/
def natToHex (n : Nat) : List Char := Nat.toDigits 16 n
/-- `.padStart(2, "0")`. -/
def padStart2 (l : List Char) : List Char :=
  if l.length < 2 then List.replicate (2 - l.length) '0' ++ l else l
/-- `.toUpperCase()` on one ASCII character. -/
def jsToUpperCh (c : Char) : Char :=
  if 97 ≤ c.toNat ∧ c.toNat ≤ 122 then Char.ofNat (c.toNat - 32) else c
/-- `.toUpperCase()`. -/
def jsToUpper (l : List Char) : List Char := l.map jsToUpperCh
/-- A non-negative decimal numeral `intPart.d₁d₂…`: the model of the JS
number `alpha` as interpolated into the template string.  `frac` is the
digit list of the number's decimal expansion as JS would print it, so a
canonical value carries no trailing zero digits. -/
structure DecNum where
  intPart : Nat
  frac : List Nat
deriving DecidableEq, Repr
/-- Value of the fractional digit list: `Σ dᵢ / 10^(i+1)`. -/
def fracVal (ds : List Nat) : ℚ :=
  ds.foldr (fun d acc => ((d : ℚ) + acc) / 10) 0
/-- Value of a decimal numeral. -/
def DecNum.val (a : DecNum) : ℚ := a.intPart + fracVal a.frac
/-- The character of a decimal digit. -/
def digitCh (d : Nat) : Char := "0123456789".data.getD d '0'
/-- Whether JS prints the number in scientific notation: a positive
magnitude below `1e-6`, i.e. a zero integer part, at least six leading
zero fraction digits, and some nonzero fraction digit. -/
def DecNum.sci (a : DecNum) : Bool :=
  a.intPart = 0 ∧ 6 ≤ (a.frac.takeWhile (fun d => d = 0)).length
    ∧ a.frac.any (fun d => d ≠ 0)
/-- Decimal rendering of a `DecNum`: how JS prints the alpha.  JS uses
plain decimal notation for `0` and for magnitudes in `[1e-6, 1e21)`; a
positive value below `1e-6` (at least six leading zero fraction digits)
is printed in scientific notation `d.mantissa e-k`, e.g.
`String(1e-7) = "1e-7"`. -/
def renderDec (a : DecNum) : List Char :=
  if a.sci then
    let m := a.frac.dropWhile (fun d => d = 0)
    digitCh (m.headD 0)
      :: ((if m.tail = [] then [] else '.' :: m.tail.map digitCh)
        ++ 'e' :: '-' :: natToDec ((a.frac.takeWhile (fun d => d = 0)).length + 1))
  else if a.frac = [] then natToDec a.intPart
  else natToDec a.intPart ++ '.' :: a.frac.map digitCh
/-- `hexToRgba` (`src/utils/colors.ts` lines 1-12): validate
`^#?[0-9A-Fa-f]{6}$`, strip the optional `#`, parse the three channel
bytes, and interpolate `rgba(r, g, b, alpha)`.  The thrown `Error` on a
failed validation is modelled as `none`. -/
def hexToRgba (hex : List Char) (alpha : DecNum) : Option (List Char) :=
  let core := if hex.head? = some '#' then hex.tail else hex
  if core.length = 6 ∧ core.all isHexDigitCh then
    let r := hexDigitVal (core.getD 0 '0') * 16 + hexDigitVal (core.getD 1 '0')
    let g := hexDigitVal (core.getD 2 '0') * 16 + hexDigitVal (core.getD 3 '0')
    let b := hexDigitVal (core.getD 4 '0') * 16 + hexDigitVal (core.getD 5 '0')
    some ("rgba(".data ++ natToDec r ++ ", ".data ++ natToDec g ++ ", ".data
          ++ natToDec b ++ ", ".data ++ renderDec alpha ++ ")".data)
  else none
/-- `parseFloat` on a string drawn from `[\d.]+`: value of the longest
prefix `digits ["." digits]`; `none` models `NaN` (no digits at all). -/
def parseFloatQ (l : List Char) : Option ℚ :=
  let intDigits := l.takeWhile isDigitCh
  let rest := l.drop intDigits.length
  match rest with
  | '.' :: r2 =>
    let fracDigits := r2.takeWhile isDigitCh
    if intDigits = [] ∧ fracDigits = [] then none
    else some ((decVal intDigits : ℚ)
      + fracDigits.foldr (fun c acc => (((c.toNat - 48 : Nat) : ℚ) + acc) / 10) 0)
  | _ => if intDigits = [] then none else some (decVal intDigits)
/-- JS `.trim()`. -/
def jsTrim (l : List Char) : List Char :=
  ((l.dropWhile isWsCh).reverse.dropWhile isWsCh).reverse
/-- One channel of the rgb regexes: `\s*(\d{1,3})`.  A longer digit run
cannot match (the next pattern character is never a digit), so the
deterministic longest-run parse is exactly the regex semantics. -/
def parseChan (l : List Char) : Option (Nat × List Char) :=
  let l1 := l.dropWhile isWsCh
  let ds := l1.takeWhile isDigitCh
  if 1 ≤ ds.length ∧ ds.length ≤ 3 then some (decVal ds, l1.drop ds.length)
  else none
/-- Expect one literal character. -/
def expectCh (c : Char) (l : List Char) : Option (List Char) :=
  match l with
  | x :: r => if x = c then some r else none
  | [] => none
/-- The shared shape of the two rgb/rgba regexes
(`^rgba?\(\s*(\d{1,3})\s*,\s*(\d{1,3})\s*,\s*(\d{1,3})(?:\s*,\s*([\d.]+))?\)$`):
returns the three channel values and the optional alpha group's text. -/
def matchRgba (l : List Char) : Option (Nat × Nat × Nat × Option (List Char)) :=
  match l with
  | 'r' :: 'g' :: 'b' :: r0 =>
    let r1 := match r0 with
      | 'a' :: r => r
      | _ => r0
    match expectCh '(' r1 with
    | none => none
    | some r2 =>
      match parseChan r2 with
      | none => none
      | some (rv, r3) =>
        match expectCh ',' (r3.dropWhile isWsCh) with
        | none => none
        | some r4 =>
          match parseChan r4 with
          | none => none
          | some (gv, r5) =>
            match expectCh ',' (r5.dropWhile isWsCh) with
            | none => none
            | some r6 =>
              match parseChan r6 with
              | none => none
              | some (bv, r7) =>
                match r7.dropWhile isWsCh with
                | ',' :: r9 =>
                  let r10 := r9.dropWhile isWsCh
                  let adigits := r10.takeWhile (fun c => isDigitCh c ∨ c = '.')
                  if adigits = [] then none
                  else
                    match r10.drop adigits.length with
                    | [')'] => some (rv, gv, bv, some adigits)
                    | _ => none
                | _ =>
                  match r7 with
                  | [')'] => some (rv, gv, bv, none)
                  | _ => none
  | _ => none
/-- `Math.round` on a non-negative rational: round half up. -/
def jsRound (q : ℚ) : Int := ⌊q + 1 / 2⌋
/-- `rgbaToHex` (`src/utils/colors.ts` lines 15-44): parse the trimmed
rgb/rgba string (throw, i.e. `none`, on no match), clamp channels to 255
and hex-encode them; an alpha group is `parseFloat`ed, clamped to `[0,1]`,
scaled to a byte with `Math.round`, and hex-encoded; the result string is
upper-cased.  A digit-free alpha group makes `parseFloat` return `NaN`,
which JS propagates to the literal text `NaN`. -/
def rgbaToHex (s : List Char) : Option (List Char) :=
  match matchRgba (jsTrim s) with
  | none => none
  | some (rv, gv, bv, aOpt) =>
    let red := min 255 rv
    let green := min 255 gv
    let blue := min 255 bv
    let rr := padStart2 (natToHex red)
    let gg := padStart2 (natToHex green)
    let bb := padStart2 (natToHex blue)
    match aOpt with
    | some astr =>
      let alphaHex :=
        match parseFloatQ astr with
        | some q =>
          let alphaFloat := max 0 (min 1 q)
          padStart2 (natToHex (jsRound (alphaFloat * 255)).toNat)
        | none => "NaN".data
      some (jsToUpper ('#' :: (rr ++ gg ++ bb ++ alphaHex)))
    | none => some (jsToUpper ('#' :: (rr ++ gg ++ bb)))
/-- `getClassFromColor` (`src/utils/classUtils.ts` lines 7-26): parse the
trimmed `rgb/rgba` string (alpha ignored), clamp channels, render the
uppercase `#RRGGBB`, and return the first class whose color matches
case-insensitively (`undefined`, i.e. `none`, otherwise). -/
def getClassFromColor (classes : List Cls) (rgbaColor : List Char) : Option Cls :=
  match matchRgba (jsTrim rgbaColor) with
  | none => none
  | some (rv, gv, bv, _) =>
    let r := min 255 rv
    let g := min 255 gv
    let b := min 255 bv
    let hexColor := jsToUpper ('#' :: (padStart2 (natToHex r)
      ++ padStart2 (natToHex g) ++ padStart2 (natToHex b)))
    classes.find? (fun cls => jsToUpper cls.color = hexColor)

/-! ## Scene/History engine (`src/components/Canvas/Canvas.tsx` 978-1737) -/
/-- The alpha constant `0.35` used by the canvas code. -/
def alpha035 : DecNum := ⟨0, [3, 5]⟩
/-- The alpha constant `0.8` used by the canvas code. -/
def alpha08 : DecNum := ⟨0, [8]⟩
/-- A shape on the fabric canvas.  Circles (point markers) and lines
(guide lines) are the polygon tool's ephemeral construction artifacts;
polygons and paths (brush strokes) are committed annotation shapes. -/
inductive Shape where
  | circle (left top : ℚ) (fill stroke : List Char)
  | line (x1 y1 x2 y2 : ℚ) (stroke : List Char)
  | polygon (points : List (ℚ × ℚ)) (fill stroke : List Char)
  | path (d : List PathCmd) (stroke : List Char)
deriving DecidableEq, Repr
/-- A canvas object: a shape plus its JS reference identity (fabric's
`canvas.remove(obj)` removes by reference; fresh identities come from the
engine model's `nextId` counter). -/
structure SceneObj where
  oid : Nat
  shape : Shape
deriving DecidableEq, Repr
/-- Committed shapes (polygons and brush paths), the complement of the
`obj.type === "line" || obj.type === "circle"` ephemera tests in the
source. -/
def Shape.isCommittedShape : Shape → Bool
  | .polygon _ _ _ => true
  | .path _ _ => true
  | .circle _ _ _ _ => false
  | .line _ _ _ _ _ => false
/-- Whether a canvas object is a committed shape. -/
def SceneObj.isCommitted (o : SceneObj) : Bool := o.shape.isCommittedShape
/-- The committed (non-ephemeral) objects of a canvas, in z-order. -/
def committedOf (objs : List SceneObj) : List SceneObj :=
  objs.filter (fun o => o.isCommitted)
/-- `circle.left` as read by the polygon tool (the tracked vertices are
always circles; the other cases are never read). -/
def SceneObj.cLeft (o : SceneObj) : ℚ :=
  match o.shape with
  | .circle l _ _ _ => l
  | _ => 0
/-- `circle.top` as read by the polygon tool. -/
def SceneObj.cTop (o : SceneObj) : ℚ :=
  match o.shape with
  | .circle _ t _ _ => t
  | _ => 0
/-- Fallback object for JS element indexing of a guaranteed-present
element (never actually used). -/
def defaultObj : SceneObj := ⟨0, .circle 0 0 [] []⟩
/-- An entry of the `annotations` React state (`Annotation` type in
`Canvas.tsx`): kind tag, class, and the referenced canvas object (by
identity). -/
structure EAnn where
  type : AnnType
  cls : Option Cls
  objId : Nat
deriving DecidableEq, Repr
/-- The active tool prop. -/
inductive Tool where
  | brush
  | polygon
  | eraser
deriving DecidableEq, Repr
/-- The engine's mutable state: the canvas object list (z-order), the
`annotations` React state, the `historyRef` snapshot log, the
`currentPolygonPoints`/`currentPolygonLines` refs, the identity supply,
and the `tool`/`selectedClass` props. -/
structure EngineState where
  canvas : List SceneObj
  annos : List EAnn
  history : List (List SceneObj)
  polyPoints : List SceneObj
  polyLines : List SceneObj
  nextId : Nat
  tool : Tool
  selCls : Option Cls
deriving DecidableEq, Repr
/-- `saveCanvasState` (lines 996-1007): append the snapshot
(`canvas.toJSON()`, whose serialized object graph is modelled by the
object list) and keep only the last 50 states (`slice(-50)`). -/
def saveCanvasState (history : List (List SceneObj)) (snap : List SceneObj) :
    List (List SceneObj) :=
  let h2 := history ++ [snap]
  if h2.length > 50 then h2.drop (h2.length - 50) else h2
/-- The `after:render` hook (lines 1288-1292): outside a restore, every
render pass calls `saveCanvasState` on the current canvas. -/
def applyRender (s : EngineState) : EngineState :=
  { s with history := saveCanvasState s.history s.canvas }
/-- `undo` (lines 1014-1042): a no-op when the log holds at most one
snapshot; otherwise clear the canvas, pop the newest snapshot, and re-add
every object of the new tail (`enlivenObjects` then `canvas.add`).  The
restore runs under the `isRestoringState` flag, so the render it triggers
takes no snapshot.  The `annotations` state is not touched. -/
def applyUndo (s : EngineState) : EngineState :=
  if s.history.length ≤ 1 then s
  else
    let history := s.history.dropLast
    { s with
      canvas := (history.getLast?).getD []
      history := history }
/-- `path:created` under the brush tool (lines 1391-1408): fabric has
already added the freshly drawn path to the canvas, with the brush color
`hexToRgba(selectedClass?.color ?? "#000000", 0.35)` (lines 1385-1388);
the handler appends an annotation referencing the path, tagged with the
selected class. -/
def applyStrokeDone (d : List PathCmd) (s : EngineState) : EngineState :=
  let stroke := (hexToRgba ((s.selCls.map Cls.color).getD "#000000".data) alpha035).getD []
  let pathObj : SceneObj := ⟨s.nextId, .path d stroke⟩
  { s with
    canvas := s.canvas ++ [pathObj]
    annos := s.annos ++ [⟨AnnType.path, s.selCls, pathObj.oid⟩]
    nextId := s.nextId + 1 }
/-- `handleMouseDown` of the polygon tool (lines 1419-1543).  A click
with no selected class alerts and returns.  Otherwise: add a point marker
circle at the pointer; from the second vertex on, add a guide line from
the previous vertex; once more than two vertices exist, close the polygon
when the pointer is within `CLOSE_THRESHOLD = 10` of the first vertex
(`Math.sqrt(dx·dx + dy·dy) < 10`, stated squared on ℚ): drop the
triggering circle, add the closing guide line, add a polygon built from
the tracked vertices, remove every tracked marker and guide from the
canvas, clear both stacks, and append one annotation for the polygon. -/
def applyPolyClick (x y : ℚ) (s : EngineState) : EngineState :=
  match s.selCls with
  | none => s
  | some cls =>
    let fill8 := (hexToRgba cls.color alpha08).getD []
    let circle : SceneObj := ⟨s.nextId, .circle x y fill8 "#ffffff".data⟩
    let canvas1 := s.canvas ++ [circle]
    let pts1 := s.polyPoints ++ [circle]
    let nid1 := s.nextId + 1
    let stroke8 := (hexToRgba cls.color alpha08).getD []
    let withLine :=
      if pts1.length > 1 then
        let prev := pts1.getD (pts1.length - 2) defaultObj
        let line : SceneObj :=
          ⟨nid1, .line prev.cLeft prev.cTop circle.cLeft circle.cTop stroke8⟩
        (canvas1 ++ [line], s.polyLines ++ [line], nid1 + 1)
      else (canvas1, s.polyLines, nid1)
    let canvas2 := withLine.1
    let lines1 := withLine.2.1
    let nid2 := withLine.2.2
    if pts1.length > 2 then
      let first := pts1.getD 0 defaultObj
      let dx := x - first.cLeft
      let dy := y - first.cTop
      if dx * dx + dy * dy < 100 then
        let canvas3 := canvas2.eraseP (fun q => q.oid = circle.oid)
        let pts2 := pts1.dropLast
        let prev2 := pts2.getD (pts2.length - 1) defaultObj
        let closing : SceneObj :=
          ⟨nid2, .line prev2.cLeft prev2.cTop first.cLeft first.cTop stroke8⟩
        let canvas4 := canvas3 ++ [closing]
        let lines2 := lines1 ++ [closing]
        let polygonPoints := pts2.map (fun p => (p.cLeft, p.cTop))
        let fill35 := (hexToRgba cls.color alpha035).getD []
        let poly : SceneObj := ⟨nid2 + 1, .polygon polygonPoints fill35 stroke8⟩
        let canvas5 := canvas4 ++ [poly]
        let canvas6 :=
          (pts2 ++ lines2).foldl (fun cv o => cv.eraseP (fun q => q.oid = o.oid)) canvas5
        { s with
          canvas := canvas6
          polyPoints := []
          polyLines := []
          annos := s.annos ++ [⟨AnnType.polygon, some cls, poly.oid⟩]
          nextId := nid2 + 2 }
      else
        { s with canvas := canvas2, polyPoints := pts1, polyLines := lines1, nextId := nid2 }
    else
      { s with canvas := canvas2, polyPoints := pts1, polyLines := lines1, nextId := nid2 }
/-- `removeAnnotation` (lines 1597-1611): drop the annotation at `index`
from the list (`filter((_, i) => i !== index)`), and, when `index` is in
range of the canvas object list, remove `objects[index]` from the canvas
(removal by reference of the element at position `index`). -/
def applyRemoveAnn (i : Nat) (s : EngineState) : EngineState :=
  let annos := (s.annos.enum.filter (fun p => p.1 ≠ i)).map Prod.snd
  let objects := s.canvas
  let canvas := if i < objects.length then objects.eraseIdx i else objects
  { s with annos := annos, canvas := canvas }
/-- The effects fired when `tool` or `selectedClass` changes (lines
1365-1379 and 1576-1595): detach the previous tool's handlers, remove
every line and circle object from the canvas, and clear both ephemeral
stacks. -/
def applySwitch (t : Tool) (c : Option Cls) (s : EngineState) : EngineState :=
  { s with
    canvas := s.canvas.filter (fun o => o.isCommitted)
    polyPoints := []
    polyLines := []
    tool := t
    selCls := c }
/-- The mount-time state (lines 1266-1303): empty canvas, empty
annotation list, and the one initial snapshot taken by the
`saveCanvasState()` call right after the canvas is created. -/
def initState (t : Tool) (c : Option Cls) : EngineState :=
  { canvas := []
    annos := []
    history := saveCanvasState [] []
    polyPoints := []
    polyLines := []
    nextId := 0
    tool := t
    selCls := c }
/-- Engine events other than `undo`: render passes, brush stroke
completions (brush tool active), polygon-tool clicks (polygon tool
active), per-annotation removals, and tool/class switches. -/
inductive StepNU : EngineState → EngineState → Prop
  | render (s : EngineState) : StepNU s (applyRender s)
  | strokeDone (s : EngineState) (d : List PathCmd) :
      s.tool = Tool.brush → StepNU s (applyStrokeDone d s)
  | polyClick (s : EngineState) (x y : ℚ) :
      s.tool = Tool.polygon → StepNU s (applyPolyClick x y s)
  | removeAnn (s : EngineState) (i : Nat) : StepNU s (applyRemoveAnn i s)
  | switchTool (s : EngineState) (t : Tool) (c : Option Cls) :
      StepNU s (applySwitch t c s)
/-- All engine events: the non-undo events plus `undo`. -/
inductive Step : EngineState → EngineState → Prop
  | ofNU {s s' : EngineState} : StepNU s s' → Step s s'
  | undo (s : EngineState) : Step s (applyUndo s)
/-- States reachable from a mount state through engine events. -/
inductive Reaches : EngineState → Prop
  | init (t : Tool) (c : Option Cls) : Reaches (initState t c)
  | step {s s' : EngineState} : Reaches s → Step s s' → Reaches s'
/-- States reachable without any `undo` call. -/
inductive ReachesNU : EngineState → Prop
  | init (t : Tool) (c : Option Cls) : ReachesNU (initState t c)
  | step {s s' : EngineState} : ReachesNU s → StepNU s s' → ReachesNU s'
/-- The identities held by the two ephemeral stacks. -/
def trackedIds (s : EngineState) : List Nat :=
  (s.polyPoints ++ s.polyLines).map SceneObj.oid
/-- Spec-side annotation rebuild after undo (claim C2 / spec §4.3.d):
scan the restored canvas objects in order, recover each polygon's or
stroke's class from its stroke color via `getClassFromColor`, and append
a fresh annotation per shape. -/
def rebuildAnnosSpec (classes : List Cls) (objs : List SceneObj) : List EAnn :=
  objs.filterMap (fun o =>
    match o.shape with
    | .polygon _ _ stroke => some ⟨AnnType.polygon, getClassFromColor classes stroke, o.oid⟩
    | .path _ stroke => some ⟨AnnType.path, getClassFromColor classes stroke, o.oid⟩
    | _ => none)
/-- The structural invariant carried through non-undo reachability:
committed objects and annotations correspond in order; canvas ephemera
are exactly the tracked ones; identities are distinct and fresh below
`nextId`; the canvas is committed objects followed by ephemera; away from
the polygon tool there are no ephemera at all. -/
def EngineInv (s : EngineState) : Prop :=
  ((committedOf s.canvas).map SceneObj.oid = s.annos.map EAnn.objId)
  ∧ (∀ o ∈ s.canvas, o.isCommitted = false → o.oid ∈ trackedIds s)
  ∧ (∀ o ∈ s.canvas, o.isCommitted = true → o.oid ∉ trackedIds s)
  ∧ (s.canvas.map SceneObj.oid).Nodup
  ∧ (∀ o ∈ s.canvas, o.oid < s.nextId)
  ∧ (∀ i ∈ trackedIds s, i < s.nextId)
  ∧ (∃ pre suf, s.canvas = pre ++ suf
      ∧ (∀ o ∈ pre, o.isCommitted = true) ∧ (∀ o ∈ suf, o.isCommitted = false))
  ∧ (s.tool ≠ Tool.polygon →
      s.polyPoints = [] ∧ s.polyLines = [] ∧ ∀ o ∈ s.canvas, o.isCommitted = true)

/-! ## Dataset schema validator (`validateCOCO`, `src/utils/COCOUtils.ts` 27-96) -/
/-- A JSON value (the candidate export document). -/
inductive JValue where
  | num (q : ℚ)
  | str (s : List Char)
  | jbool (b : Bool)
  | jnull
  | arr (items : List JValue)
  | obj (fields : List (List Char × JValue))
/-- A step of a zod issue path: an object key or an array index. -/
inductive PathPart where
  | key (k : List Char)
  | idx (i : Nat)
deriving DecidableEq, Repr
/-- A structured zod issue: its path into the document and an issue
code. -/
structure ZIssue where
  path : List PathPart
  code : List Char
deriving DecidableEq, Repr
/-- JS object field access (first binding wins). -/
def lookupField (fields : List (List Char × JValue)) (k : List Char) : Option JValue :=
  (fields.find? (fun f => f.1 = k)).map (fun f => f.2)
/-- `z.number()`. -/
def checkNumber (path : List PathPart) (v : JValue) : List ZIssue :=
  match v with
  | .num _ => []
  | _ => [⟨path, "invalid_type_number".data⟩]
/-- `z.string()`. -/
def checkString (path : List PathPart) (v : JValue) : List ZIssue :=
  match v with
  | .str _ => []
  | _ => [⟨path, "invalid_type_string".data⟩]
/-- Abstraction of the WHATWG URL validity behind `z.string().url()`
(`new URL(value)` succeeding): a nonempty scheme, `"://"`, and a nonempty
remainder.  No theorem below depends on the exact boundary of this
predicate; the concrete documents used in the theorems carry ordinary
`https://...` URLs, valid under the real check and under this
abstraction alike. -/
def isValidUrl (s : List Char) : Bool :=
  let scheme := s.takeWhile (fun c => c ≠ ':')
  let rest := s.drop scheme.length
  scheme.length > 0 ∧ rest.take 3 = ':' :: '/' :: ['/'] ∧ rest.length > 3
/-- `z.string().url()`. -/
def checkUrlString (path : List PathPart) (v : JValue) : List ZIssue :=
  match v with
  | .str s => if isValidUrl s then [] else [⟨path, "invalid_string_url".data⟩]
  | _ => [⟨path, "invalid_type_string".data⟩]
/-- One required object field: missing keys are reported as `required`,
present ones are checked recursively at the extended path. -/
def checkField (fs : List (List Char × JValue)) (path : List PathPart)
    (name : List Char) (chk : List PathPart → JValue → List ZIssue) : List ZIssue :=
  match lookupField fs name with
  | some v => chk (path ++ [.key name]) v
  | none => [⟨path ++ [.key name], "required".data⟩]
/-- `z.array(elem)`: element issues are collected for every index. -/
def checkArray (elemChk : List PathPart → JValue → List ZIssue)
    (path : List PathPart) (v : JValue) : List ZIssue :=
  match v with
  | .arr items => items.enum.flatMap (fun p => elemChk (path ++ [.idx p.1]) p.2)
  | _ => [⟨path, "invalid_type_array".data⟩]
/-- `z.array(z.number())`. -/
def checkNumArr (path : List PathPart) (v : JValue) : List ZIssue :=
  checkArray checkNumber path v
/-- `z.array(z.array(z.number()))`. -/
def checkNumArrArr (path : List PathPart) (v : JValue) : List ZIssue :=
  checkArray checkNumArr path v
/-- The segmentation element union
`z.union([z.array(z.number()), z.array(z.array(z.number()))])`: passes
when either option passes, otherwise a single union issue. -/
def checkSegItem (path : List PathPart) (v : JValue) : List ZIssue :=
  if checkNumArr path v = [] ∨ checkNumArrArr path v = [] then []
  else [⟨path, "invalid_union".data⟩]
/-- `z.array(z.number()).length(4)` (the `bbox` field): element checks
plus the exact-length check. -/
def checkBbox (path : List PathPart) (v : JValue) : List ZIssue :=
  match v with
  | .arr items =>
    (items.enum.flatMap (fun p => checkNumber (path ++ [.idx p.1]) p.2))
      ++ (if items.length < 4 then [⟨path, "too_small".data⟩]
          else if items.length > 4 then [⟨path, "too_big".data⟩]
          else [])
  | _ => [⟨path, "invalid_type_array".data⟩]
/-- `infoSchema`. -/
def checkInfo (path : List PathPart) (v : JValue) : List ZIssue :=
  match v with
  | .obj fs =>
    checkField fs path "description".data checkString
      ++ checkField fs path "url".data checkUrlString
      ++ checkField fs path "version".data checkString
      ++ checkField fs path "year".data checkNumber
      ++ checkField fs path "contributor".data checkString
      ++ checkField fs path "date_created".data checkString
  | _ => [⟨path, "invalid_type_object".data⟩]
/-- `licenseSchema`. -/
def checkLicense (path : List PathPart) (v : JValue) : List ZIssue :=
  match v with
  | .obj fs =>
    checkField fs path "url".data checkUrlString
      ++ checkField fs path "id".data checkNumber
      ++ checkField fs path "name".data checkString
  | _ => [⟨path, "invalid_type_object".data⟩]
/-- `imageSchema`. -/
def checkImage (path : List PathPart) (v : JValue) : List ZIssue :=
  match v with
  | .obj fs =>
    checkField fs path "license".data checkNumber
      ++ checkField fs path "file_name".data checkString
      ++ checkField fs path "coco_url".data checkUrlString
      ++ checkField fs path "height".data checkNumber
      ++ checkField fs path "width".data checkNumber
      ++ checkField fs path "date_captured".data checkString
      ++ checkField fs path "flickr_url".data checkUrlString
      ++ checkField fs path "id".data checkNumber
  | _ => [⟨path, "invalid_type_object".data⟩]
/-- `annotationSchema` (`COCOUtils.ts` lines 54-64). -/
def checkAnnObj (path : List PathPart) (v : JValue) : List ZIssue :=
  match v with
  | .obj fs =>
    checkField fs path "segmentation".data (checkArray checkSegItem)
      ++ checkField fs path "area".data checkNumber
      ++ checkField fs path "iscrowd".data checkNumber
      ++ checkField fs path "image_id".data checkNumber
      ++ checkField fs path "bbox".data checkBbox
      ++ checkField fs path "category_id".data checkNumber
      ++ checkField fs path "id".data checkNumber
  | _ => [⟨path, "invalid_type_object".data⟩]
/-- `categorySchema`. -/
def checkCategory (path : List PathPart) (v : JValue) : List ZIssue :=
  match v with
  | .obj fs =>
    checkField fs path "supercategory".data checkString
      ++ checkField fs path "id".data checkNumber
      ++ checkField fs path "name".data checkString
  | _ => [⟨path, "invalid_type_object".data⟩]
/-- `cocoSchema`: the five top-level sections, checked in declaration
order; issues from all sections are concatenated (zod collects the
issues of every object field in one pass). -/
def checkCoco (path : List PathPart) (v : JValue) : List ZIssue :=
  match v with
  | .obj fs =>
    checkField fs path "info".data checkInfo
      ++ checkField fs path "licenses".data (checkArray checkLicense)
      ++ checkField fs path "images".data (checkArray checkImage)
      ++ checkField fs path "annotations".data (checkArray checkAnnObj)
      ++ checkField fs path "categories".data (checkArray checkCategory)
  | _ => [⟨path, "invalid_type_object".data⟩]
/-- Result of `validateCOCO`: `{success: true, ...}` or
`{success: false, message, details}`. -/
inductive VResult where
  | ok
  | failed (details : List ZIssue)
deriving DecidableEq, Repr
/-- `validateCOCO` (`COCOUtils.ts` lines 82-96): `cocoSchema.parse`
throws a `ZodError` carrying every collected issue iff any issue exists;
the `catch` turns it into a structured failure result, so the function
itself never throws. -/
def validateCOCO (data : JValue) : VResult :=
  let issues := checkCoco [] data
  if issues = [] then .ok else .failed issues

/-- Concrete class used by the concrete traces below. -/
def cexCls : Cls := ⟨1, "car".data, "#A1B2C3".data⟩
/-- Concrete brush stroke path used by the concrete traces below. -/
def cexPath : List PathCmd := [⟨"M", [0, 0]⟩, ⟨"L", [5, 5]⟩]
/-- Mount with the brush tool and a selected class, draw one stroke, let
the render pass snapshot it. -/
def cexState1 : EngineState :=
  applyRender (applyStrokeDone cexPath (initState Tool.brush (some cexCls)))
/-- ... and then call `undo`. -/
def cexState2 : EngineState := applyUndo cexState1

/-- A polygon-tool session: mount with the polygon tool and a selected
class, then click three vertices. -/
def polyS0 : EngineState := initState Tool.polygon (some cexCls)
/-- ... first vertex at (0, 0). -/
def polyS1 : EngineState := applyPolyClick 0 0 polyS0
/-- ... second vertex at (20, 0). -/
def polyS2 : EngineState := applyPolyClick 20 0 polyS1
/-- ... third vertex at (20, 20). -/
def polyS3 : EngineState := applyPolyClick 20 20 polyS2

/-- A structurally valid COCO document whose single annotation carries
`image_id = 42` while the only declared image has `id = 1`: a dangling
cross-reference. -/
def crossRefDoc : JValue := .obj [
  ("info".data, .obj [
    ("description".data, .str "d".data),
    ("url".data, .str "https://a.bc/x".data),
    ("version".data, .str "1.0".data),
    ("year".data, .num 2024),
    ("contributor".data, .str "c".data),
    ("date_created".data, .str "t".data)]),
  ("licenses".data, .arr [.obj [
    ("url".data, .str "https://a.bc/x".data),
    ("id".data, .num 1),
    ("name".data, .str "n".data)]]),
  ("images".data, .arr [.obj [
    ("license".data, .num 1),
    ("file_name".data, .str "f.jpg".data),
    ("coco_url".data, .str "https://a.bc/x".data),
    ("height".data, .num 600),
    ("width".data, .num 800),
    ("date_captured".data, .str "t".data),
    ("flickr_url".data, .str "https://a.bc/x".data),
    ("id".data, .num 1)]]),
  ("annotations".data, .arr [.obj [
    ("segmentation".data, .arr [.arr [.num 0, .num 0, .num 1, .num 0, .num 1, .num 1]]),
    ("area".data, .num 1),
    ("iscrowd".data, .num 0),
    ("image_id".data, .num 42),
    ("bbox".data, .arr [.num 0, .num 0, .num 1, .num 1]),
    ("category_id".data, .num 7),
    ("id".data, .num 1)]]),
  ("categories".data, .arr [.obj [
    ("supercategory".data, .str "none".data),
    ("id".data, .num 7),
    ("name".data, .str "car".data)]])]
/-- `crossRefDoc` with two independent violations: `info.year` is a
string and the category's `id` is a string. -/
def dualViolationDoc : JValue := .obj [
  ("info".data, .obj [
    ("description".data, .str "d".data),
    ("url".data, .str "https://a.bc/x".data),
    ("version".data, .str "1.0".data),
    ("year".data, .str "2024".data),
    ("contributor".data, .str "c".data),
    ("date_created".data, .str "t".data)]),
  ("licenses".data, .arr []),
  ("images".data, .arr []),
  ("annotations".data, .arr []),
  ("categories".data, .arr [.obj [
    ("supercategory".data, .str "none".data),
    ("id".data, .str "seven".data),
    ("name".data, .str "car".data)]])]

/-! ## Theorems -/

/-- `List.eraseIdx` written as "keep the prefix before `i`, drop entry `i`,
keep the rest": used to state frame conditions of deletions. -/
theorem eraseIdx_eq_take_append_drop {α : Type} :
    ∀ (l : List α) (i : Nat), l.eraseIdx i = l.take i ++ l.drop (i + 1) := by
  intro l
  induction l with
  | nil => intro i; cases i <;> rfl
  | cons a t ih =>
    intro i
    cases i with
    | zero => simp [List.eraseIdx]
    | succ j => simp [List.eraseIdx, ih j]
/-- When every index produced by `enumFrom j` exceeds `m`, the filter
"index differs from `m`" keeps everything. -/
theorem filter_enumFrom_gt_keeps {α : Type} :
    ∀ (v : List α) (j m : Nat), m < j →
      ((v.enumFrom j).filter (fun p => p.1 ≠ m)).map Prod.snd = v := by
  intro v
  induction v with
  | nil => intro j m _; rfl
  | cons c w ihw =>
    intro j m hj
    simp only [List.enumFrom, List.filter_cons]
    rw [if_pos (by simp only [decide_eq_true_eq]; omega)]
    simp only [List.map]
    rw [ihw (j + 1) m (by omega)]
/-- Filtering a list by "index differs from `i`" (the JS
`filter((_, idx) => idx !== i)` idiom) is `eraseIdx`. -/
theorem filter_enum_ne_eq_eraseIdx {α : Type} :
    ∀ (l : List α) (i : Nat),
      ((l.enum.filter (fun p => p.1 ≠ i)).map Prod.snd) = l.eraseIdx i := by
  have key : ∀ (l : List α) (k i : Nat),
      (((l.enumFrom k).filter (fun p => p.1 ≠ (k + i))).map Prod.snd)
        = l.eraseIdx i := by
    intro l
    induction l with
    | nil => intro k i; rfl
    | cons a t ih =>
      intro k i
      cases i with
      | zero =>
        simp only [List.enumFrom, List.filter_cons, Nat.add_zero]
        rw [if_neg (by simp)]
        have hkeep := filter_enumFrom_gt_keeps t (k + 1) k (by omega)
        simpa using hkeep
      | succ j =>
        simp only [List.enumFrom, List.filter_cons]
        rw [if_pos (by simp only [decide_eq_true_eq]; omega)]
        simp only [List.map, List.eraseIdx]
        have := ih (k + 1) j
        have harg : k + 1 + j = k + (j + 1) := by omega
        rw [harg] at this
        rw [this]
  intro l i
  have := key l 0 i
  simpa [List.enum] using this
theorem pathStep_fst (pts : List (ℚ × ℚ)) (cx cy : ℚ) (c : PathCmd) :
    (pathStep (pts, cx, cy) c).1 = pathToPointsSpecStep pts c := by
  unfold pathStep pathToPointsSpecStep
  by_cases hM : c.cmd = "M" <;> by_cases hL : c.cmd = "L" <;>
    by_cases hC : c.cmd = "C" <;> by_cases hQ : c.cmd = "Q" <;>
    by_cases hZ : c.cmd = "Z" <;>
    simp_all <;> cases pts <;> simp_all
theorem pathPoints_eq_spec_aux (cmds : List PathCmd) :
    ∀ (pts : List (ℚ × ℚ)) (cx cy : ℚ),
      (cmds.foldl pathStep (pts, cx, cy)).1 = cmds.foldl pathToPointsSpecStep pts := by
  induction cmds with
  | nil => intro pts cx cy; rfl
  | cons c rest ih =>
    intro pts cx cy
    simp only [List.foldl]
    have hstep := pathStep_fst pts cx cy c
    rcases h : pathStep (pts, cx, cy) c with ⟨pts', cx', cy'⟩
    have : pts' = pathToPointsSpecStep pts c := by rw [← hstep, h]
    rw [ih pts' cx' cy', this]
theorem buildOneAnnData_eq_some (categoryMap : List (Int × Int))
    (imageId : Option Int) (annId : Int) (a : Ann) :
    buildOneAnnData categoryMap imageId annId a
      = some (buildOneTotal categoryMap imageId annId a) := by
  cases h : a.type <;> simp [buildOneAnnData, buildOneTotal, h]
theorem buildAnnotationsData_eq_map (annos : List Ann)
    (categoryMap : List (Int × Int)) (imageId : Option Int) (idSupply : Nat → Int) :
    buildAnnotationsData annos categoryMap imageId idSupply
      = annos.enum.map (fun p => buildOneTotal categoryMap imageId (idSupply p.1) p.2) := by
  unfold buildAnnotationsData
  rw [List.filterMap_map]
  have hfun : (id ∘ fun p : Nat × Ann => buildOneAnnData categoryMap imageId (idSupply p.1) p.2)
      = some ∘ (fun p : Nat × Ann => buildOneTotal categoryMap imageId (idSupply p.1) p.2) := by
    funext p
    simp [buildOneAnnData_eq_some]
  rw [hfun, List.filterMap_eq_map]
/-- **C7.**  Path-command flattening keeps only terminal coordinates: for
every path-command list, `M`/`L` commands contribute their endpoint, `C`/`Q`
commands contribute only their final endpoint (control points are never
sampled), `Z` appends a copy of the first collected point, and the emitted
segmentation is the flattened `[x0, y0, x1, y1, ...]` of these points in
order. -/
theorem C7_path_flattening_terminal_only (p : PathObj) (catId : Int)
    (imageId : Option Int) (annId : Int) :
    pathPointsOfCmds p.path = pathToPointsSpec p.path ∧
    (buildPathAnn p catId imageId annId).segmentation
      = [flattenPts (pathToPointsSpec p.path)] := by
  have h : pathPointsOfCmds p.path = pathToPointsSpec p.path :=
    pathPoints_eq_spec_aux p.path [] 0 0
  refine ⟨h, ?_⟩
  show [flattenPts (pathPointsOfCmds p.path)] = [flattenPts (pathToPointsSpec p.path)]
  rw [h]
/-- **C10.**  In the Dataset Builder, an input annotation with `null` class
is emitted with `category_id = 0`, a `null` `imageId` yields `image_id = 0`,
and the output has exactly one COCO annotation per input annotation, in
input order. -/
theorem C10_builder_defaults_and_order (annos : List Ann)
    (categoryMap : List (Int × Int)) (imageId : Option Int) (idSupply : Nat → Int) :
    (buildAnnotationsData annos categoryMap imageId idSupply).length = annos.length ∧
    (∀ i a, annos.get? i = some a →
      ∃ o, (buildAnnotationsData annos categoryMap imageId idSupply).get? i = some o ∧
        (a.cls = none → o.category_id = some 0) ∧
        (imageId = none → o.image_id = some 0)) := by
  rw [buildAnnotationsData_eq_map]
  constructor
  · simp
  · intro i a ha
    have henum : annos.enum.get? i = some (i, a) := by
      rw [List.get?_enum, ha]; rfl
    refine ⟨buildOneTotal categoryMap imageId (idSupply i) a, ?_, ?_, ?_⟩
    · rw [List.get?_map, henum]; rfl
    · intro hcls
      cases ht : a.type <;>
        simp [buildOneTotal, ht, hcls, buildPolygonAnn, buildPathAnn]
    · intro himg
      cases ht : a.type <;>
        simp [buildOneTotal, ht, himg, buildPolygonAnn, buildPathAnn]
/-- Closed instance of `C10_builder_defaults_and_order`: a single class-less
polygon annotation with no bound image id is emitted with
`category_id = 0` and `image_id = 0`. -/
theorem C10_builder_defaults_witness :
    ∃ o, (buildAnnotationsData [⟨AnnType.polygon, none, .poly ⟨[], none, none, none, none⟩⟩]
        [] none (fun _ => 7)).get? 0 = some o ∧
      o.category_id = some 0 ∧ o.image_id = some 0 := by
  obtain ⟨o, ho, hc, hi⟩ :=
    (C10_builder_defaults_and_order
      [⟨AnnType.polygon, none, .poly ⟨[], none, none, none, none⟩⟩]
      [] none (fun _ => 7)).2 0
      ⟨AnnType.polygon, none, .poly ⟨[], none, none, none, none⟩⟩ rfl
  exact ⟨o, ho, hc rfl, hi rfl⟩

theorem saveCanvasState_eq_drop (h : List (List SceneObj)) (snap : List SceneObj) :
    saveCanvasState h snap = (h ++ [snap]).drop (h.length + 1 - 50) := by
  unfold saveCanvasState
  by_cases hl : (h ++ [snap]).length > 50
  · rw [if_pos hl]
    have : (h ++ [snap]).length - 50 = h.length + 1 - 50 := by
      simp [List.length_append]
    rw [this]
  · rw [if_neg hl]
    have : h.length + 1 - 50 = 0 := by
      simp [List.length_append] at hl
      omega
    rw [this, List.drop_zero]

/-- **C4 (amended).**  The snapshot log is bounded by 50 entries, not 500:
after every append the log holds at most 50 entries, and an append keeps
exactly the newest 50 snapshots, dropping the oldest beyond that
(`slice(-50)`). -/
theorem C4_amended_log_capped_at_50 (h : List (List SceneObj)) (snap : List SceneObj) :
    (saveCanvasState h snap).length ≤ 50 ∧
    saveCanvasState h snap = (h ++ [snap]).drop (h.length + 1 - 50) := by
  refine ⟨?_, saveCanvasState_eq_drop h snap⟩
  rw [saveCanvasState_eq_drop h snap]
  simp [List.length_append]
  omega

/-- **C4 (counterexample).**  The claim's bound of 500 is wrong: a log of
50 entries is far below 500, yet appending to it is not a pure append —
the oldest entry is already dropped at 50. -/
theorem C4_counterexample_cap_not_500 :
    (List.replicate 50 ([] : List SceneObj)).length < 500 ∧
    saveCanvasState (List.replicate 50 []) [] ≠ List.replicate 50 [] ++ [[]] := by
  constructor
  · simp
  · intro hcontra
    have hlen := congrArg List.length hcontra
    rw [saveCanvasState_eq_drop] at hlen
    simp at hlen

/-- **C5 (amended).**  After a render pass in which the engine is not
restoring, a snapshot is appended unconditionally — there is no
object-count comparison with the previous tail; the only processing is the
50-entry truncation. -/
theorem C5_amended_every_render_appends (s : EngineState)
    (hlen : s.history.length < 50) :
    (applyRender s).history = s.history ++ [s.canvas] := by
  show saveCanvasState s.history s.canvas = s.history ++ [s.canvas]
  rw [saveCanvasState_eq_drop]
  have : s.history.length + 1 - 50 = 0 := by omega
  rw [this, List.drop_zero]

/-- Closed instance of `C5_amended_every_render_appends` at the mount
state. -/
theorem C5_amended_witness :
    (applyRender (initState Tool.brush none)).history
      = (initState Tool.brush none).history ++ [(initState Tool.brush none).canvas] :=
  C5_amended_every_render_appends (initState Tool.brush none) (by decide)

/-- **C5 (counterexample).**  A reachable state whose canvas object count
equals the count in the tail snapshot: a further render pass still appends
a snapshot, refuting the claimed count-delta debounce. -/
theorem C5_counterexample_no_debounce :
    Reaches cexState1 ∧
    cexState1.history ≠ [] ∧
    (cexState1.history.getLast?).map List.length = some cexState1.canvas.length ∧
    (applyRender cexState1).history ≠ cexState1.history := by
  refine ⟨?_, ?_, ?_, ?_⟩
  · exact Reaches.step
      (Reaches.step (Reaches.init Tool.brush (some cexCls))
        (Step.ofNU (StepNU.strokeDone _ cexPath rfl)))
      (Step.ofNU (StepNU.render _))
  · decide
  · decide
  · decide

theorem applyUndo_spec (s : EngineState) (h : s.history.length > 1) :
    applyUndo s = { s with
      history := s.history.dropLast
      canvas := (s.history.dropLast.getLast?).getD [] } := by
  unfold applyUndo
  rw [if_neg (by omega)]

/-- **C2 (counterexample).**  A reachable state with a committed object
and two snapshots in the log: `undo` pops and restores, but the resulting
annotation list is not the one rebuilt from the restored canvas via
`getClassFromColor` — it is the stale pre-undo list. -/
theorem C2_counterexample_undo_does_not_rebuild :
    cexState1.history.length > 1 ∧
    committedOf cexState1.canvas ≠ [] ∧
    (applyUndo cexState1).annos
      ≠ rebuildAnnosSpec [cexCls] ((applyUndo cexState1).canvas) := by
  refine ⟨by decide, by decide, by decide⟩

/-- **C2 (amended).**  When the log holds more than one snapshot, `undo`
pops the newest snapshot and restores the canvas from the new tail, and it
leaves the annotation list unchanged — no rebuild and no
`classFromColor` recovery happens. -/
theorem C2_amended_undo_pops_and_restores (s : EngineState)
    (h : s.history.length > 1) :
    (applyUndo s).history = s.history.dropLast ∧
    (applyUndo s).canvas = (s.history.dropLast.getLast?).getD [] ∧
    (applyUndo s).annos = s.annos := by
  rw [applyUndo_spec s h]
  exact ⟨rfl, rfl, rfl⟩

/-- Closed instance of `C2_amended_undo_pops_and_restores` on the concrete
one-stroke trace. -/
theorem C2_amended_witness :
    (applyUndo cexState1).history = cexState1.history.dropLast ∧
    (applyUndo cexState1).canvas = (cexState1.history.dropLast.getLast?).getD [] ∧
    (applyUndo cexState1).annos = cexState1.annos :=
  C2_amended_undo_pops_and_restores cexState1 (by decide)

/-- **C9.**  For `i` in range of both lists, deleting the annotation at
index `i` removes exactly that entry from the annotation list and exactly
the object at index `i` from the canvas object list; all other entries of
both lists survive in their relative order. -/
theorem C9_removeAnn_exact_frame (s : EngineState) (i : Nat)
    (hi : i < s.annos.length) (hc : i < s.canvas.length) :
    (applyRemoveAnn i s).annos = s.annos.take i ++ s.annos.drop (i + 1) ∧
    (applyRemoveAnn i s).canvas = s.canvas.take i ++ s.canvas.drop (i + 1) := by
  unfold applyRemoveAnn
  refine ⟨?_, ?_⟩
  · show ((s.annos.enum.filter (fun p => p.1 ≠ i)).map Prod.snd) = _
    rw [filter_enum_ne_eq_eraseIdx, eraseIdx_eq_take_append_drop]
  · show (if i < s.canvas.length then s.canvas.eraseIdx i else s.canvas) = _
    rw [if_pos hc, eraseIdx_eq_take_append_drop]

/-- Closed instance of `C9_removeAnn_exact_frame` on the one-stroke
trace: removing annotation 0 empties both lists. -/
theorem C9_removeAnn_witness :
    (applyRemoveAnn 0 cexState1).annos
        = cexState1.annos.take 0 ++ cexState1.annos.drop 1 ∧
    (applyRemoveAnn 0 cexState1).canvas
        = cexState1.canvas.take 0 ++ cexState1.canvas.drop 1 :=
  C9_removeAnn_exact_frame cexState1 0 (by decide) (by decide)

theorem eraseP_eq_filter_of_nodup (objs : List SceneObj) (i : Nat)
    (h : (objs.map SceneObj.oid).Nodup) :
    objs.eraseP (fun q => q.oid = i) = objs.filter (fun q => q.oid ≠ i) := by
  induction objs with
  | nil => rfl
  | cons a t ih =>
    simp only [List.map_cons, List.nodup_cons] at h
    by_cases ha : a.oid = i
    · rw [List.eraseP_cons, List.filter_cons]
      have hpa : (decide (a.oid = i)) = true := by simp [ha]
      rw [hpa]
      simp only [cond_true]
      rw [if_neg (by simp [ha])]
      refine (List.filter_eq_self.mpr ?_).symm
      intro q hq
      have hne : q.oid ≠ i := by
        intro hqi
        apply h.1
        rw [ha, ← hqi]
        exact List.mem_map_of_mem SceneObj.oid hq
      simp [hne]
    · rw [List.eraseP_cons, List.filter_cons]
      have hpa : (decide (a.oid = i)) = false := by simp [ha]
      rw [hpa]
      simp only [cond_false]
      rw [if_pos (by simp [ha]), ih h.2]

theorem foldl_eraseP_eq_filter (rem : List SceneObj) :
    ∀ (objs : List SceneObj), (objs.map SceneObj.oid).Nodup →
      rem.foldl (fun cv o => cv.eraseP (fun q => q.oid = o.oid)) objs
        = objs.filter (fun q => q.oid ∉ rem.map SceneObj.oid) := by
  induction rem with
  | nil => intro objs _; simp
  | cons r rest ih =>
    intro objs h
    simp only [List.foldl]
    rw [eraseP_eq_filter_of_nodup objs r.oid h]
    have hsub : ((objs.filter (fun q => q.oid ≠ r.oid)).map SceneObj.oid).Nodup :=
      List.Nodup.sublist ((List.filter_sublist objs).map SceneObj.oid) h
    rw [ih _ hsub, List.filter_filter]
    apply List.filter_congr
    intro q _
    by_cases h1 : q.oid = r.oid <;> by_cases h2 : q.oid ∈ rest.map SceneObj.oid <;>
      simp [h1, h2]

theorem close_canvas_eq (canvas pts lns : List SceneObj) (n : Nat) (c l k p : SceneObj)
    (hcoid : c.oid = n) (hloid : l.oid = n + 1) (hkoid : k.oid = n + 2) (hpoid : p.oid = n + 3)
    (hnodup : (canvas.map SceneObj.oid).Nodup)
    (htrack : ∀ o ∈ canvas, o.isCommitted = false → o.oid ∈ (pts ++ lns).map SceneObj.oid)
    (hcomm : ∀ o ∈ canvas, o.isCommitted = true → o.oid ∉ (pts ++ lns).map SceneObj.oid)
    (hfresh : ∀ o ∈ canvas, o.oid < n)
    (hfreshT : ∀ i ∈ (pts ++ lns).map SceneObj.oid, i < n) :
    (pts ++ (lns ++ [l] ++ [k])).foldl (fun cv o => cv.eraseP (fun q => q.oid = o.oid))
        ((((canvas ++ [c]) ++ [l]).eraseP (fun q => q.oid = n) ++ [k]) ++ [p])
      = committedOf canvas ++ [p] := by
  have e1 : ((canvas ++ [c]) ++ [l]).eraseP (fun q => decide (q.oid = n)) = canvas ++ [l] := by
    rw [List.append_assoc]
    rw [List.eraseP_append_right _ (fun b hb => by
      simp only [decide_eq_true_eq]
      have := hfresh b hb
      omega)]
    simp [List.eraseP_cons, hcoid]
  rw [e1]
  have hassoc : ((canvas ++ [l]) ++ [k]) ++ [p] = canvas ++ [l, k, p] := by
    simp [List.append_assoc]
  rw [hassoc]
  have hn5 : ((canvas ++ [l, k, p]).map SceneObj.oid).Nodup := by
    rw [List.map_append]
    refine List.Nodup.append hnodup ?_ ?_
    · simp [hloid, hkoid, hpoid]
    · rw [List.disjoint_left]
      intro a ha hmem
      have h1 : a < n := by
        rcases List.mem_map.mp ha with ⟨o, ho, rfl⟩
        exact hfresh o ho
      simp [hloid, hkoid, hpoid] at hmem
      omega
  rw [foldl_eraseP_eq_filter _ _ hn5]
  rw [List.filter_append]
  have hIds : ∀ (q : SceneObj),
      (q.oid ∈ (pts ++ (lns ++ [l] ++ [k])).map SceneObj.oid)
        ↔ (q.oid ∈ (pts ++ lns).map SceneObj.oid ∨ q.oid = n + 1 ∨ q.oid = n + 2) := by
    intro q
    constructor
    · intro h
      rcases List.mem_map.mp h with ⟨o, ho, hoid⟩
      rcases List.mem_append.mp ho with h1 | h2
      · left
        rw [← hoid]
        exact List.mem_map_of_mem _ (List.mem_append.mpr (Or.inl h1))
      · rcases List.mem_append.mp h2 with h3 | h4
        · rcases List.mem_append.mp h3 with h5 | h6
          · left
            rw [← hoid]
            exact List.mem_map_of_mem _ (List.mem_append.mpr (Or.inr h5))
          · right
            left
            rw [← hoid, List.mem_singleton.mp h6, hloid]
        · right
          right
          rw [← hoid, List.mem_singleton.mp h4, hkoid]
    · intro h
      rcases h with h1 | h2 | h3
      · rcases List.mem_map.mp h1 with ⟨o, ho, hoid⟩
        rw [← hoid]
        refine List.mem_map_of_mem _ (List.mem_append.mpr ?_)
        rcases List.mem_append.mp ho with hp | hl
        · exact Or.inl hp
        · exact Or.inr (List.mem_append.mpr (Or.inl (List.mem_append.mpr (Or.inl hl))))
      · rw [h2, ← hloid]
        exact List.mem_map_of_mem _ (by simp)
      · rw [h3, ← hkoid]
        exact List.mem_map_of_mem _ (by simp)
  have hl_mem : ¬ (l.oid ∉ (pts ++ (lns ++ [l] ++ [k])).map SceneObj.oid) := by
    intro hcon
    exact hcon ((hIds l).mpr (Or.inr (Or.inl hloid)))
  have hk_mem : ¬ (k.oid ∉ (pts ++ (lns ++ [l] ++ [k])).map SceneObj.oid) := by
    intro hcon
    exact hcon ((hIds k).mpr (Or.inr (Or.inr hkoid)))
  have hp_not : p.oid ∉ (pts ++ (lns ++ [l] ++ [k])).map SceneObj.oid := by
    intro hmem
    rcases (hIds p).mp hmem with h | h | h
    · have := hfreshT _ h
      omega
    · omega
    · omega
  have hflt : List.filter (fun q => q.oid ∉ (pts ++ (lns ++ [l] ++ [k])).map SceneObj.oid)
      [l, k, p] = [p] := by
    rw [List.filter_cons, List.filter_cons, List.filter_cons, List.filter_nil]
    rw [if_neg (by simpa using hl_mem), if_neg (by simpa using hk_mem),
      if_pos (by simpa using hp_not)]
  rw [hflt]
  have hcv : List.filter (fun q => q.oid ∉ (pts ++ (lns ++ [l] ++ [k])).map SceneObj.oid)
      canvas = committedOf canvas := by
    apply List.filter_congr
    intro o ho
    cases hoc : o.isCommitted with
    | true =>
      have h1 := hcomm o ho hoc
      have h2 := hfresh o ho
      have hnot : o.oid ∉ (pts ++ (lns ++ [l] ++ [k])).map SceneObj.oid := by
        intro hmem
        rcases (hIds o).mp hmem with h | h | h
        · exact h1 h
        · omega
        · omega
      simpa using hnot
    | false =>
      have h1 := htrack o ho hoc
      have hin : o.oid ∈ (pts ++ (lns ++ [l] ++ [k])).map SceneObj.oid :=
        (hIds o).mpr (Or.inl h1)
      simp only [decide_eq_false_iff_not, not_not]
      exact hin
  rw [hcv]

theorem applyPolyClick_close_char (s : EngineState) (cls : Cls) (x y : ℚ)
    (hcls : s.selCls = some cls)
    (hn : 2 ≤ s.polyPoints.length)
    (hdist : (x - (s.polyPoints.getD 0 defaultObj).cLeft)
           * (x - (s.polyPoints.getD 0 defaultObj).cLeft)
         + (y - (s.polyPoints.getD 0 defaultObj).cTop)
           * (y - (s.polyPoints.getD 0 defaultObj).cTop) < 100)
    (hnodup : (s.canvas.map SceneObj.oid).Nodup)
    (htrack : ∀ o ∈ s.canvas, o.isCommitted = false → o.oid ∈ trackedIds s)
    (hcomm : ∀ o ∈ s.canvas, o.isCommitted = true → o.oid ∉ trackedIds s)
    (hfresh : ∀ o ∈ s.canvas, o.oid < s.nextId)
    (hfreshT : ∀ i ∈ trackedIds s, i < s.nextId) :
    applyPolyClick x y s = { s with
      canvas := committedOf s.canvas
        ++ [⟨s.nextId + 3, .polygon (s.polyPoints.map (fun p => (p.cLeft, p.cTop)))
              ((hexToRgba cls.color alpha035).getD [])
              ((hexToRgba cls.color alpha08).getD [])⟩]
      annos := s.annos ++ [⟨AnnType.polygon, some cls, s.nextId + 3⟩]
      polyPoints := []
      polyLines := []
      nextId := s.nextId + 4 } := by
  have h0 : 0 < s.polyPoints.length := by omega
  simp only [applyPolyClick, hcls]
  have hgetD : ∀ (c : SceneObj),
      ((s.polyPoints ++ [c]).getD 0 defaultObj) = s.polyPoints.getD 0 defaultObj :=
    fun c => List.getD_append _ _ _ 0 h0
  rw [if_pos (by simp only [List.length_append, List.length_cons, List.length_nil]; omega)]
  rw [hgetD]
  rw [if_pos hdist]
  rw [if_pos (by simp only [List.length_append, List.length_cons, List.length_nil]; omega)]
  rw [List.dropLast_concat]
  simp only [EngineState.mk.injEq, and_true, true_and]
  exact close_canvas_eq s.canvas s.polyPoints s.polyLines s.nextId _ _ _ _
    rfl rfl rfl rfl hnodup htrack hcomm hfresh hfreshT

theorem map_eraseIdx {α β : Type} (f : α → β) (l : List α) (i : Nat) :
    (l.eraseIdx i).map f = (l.map f).eraseIdx i := by
  rw [eraseIdx_eq_take_append_drop, eraseIdx_eq_take_append_drop, List.map_append,
    List.map_take, List.map_drop]

theorem committedOf_idem (l : List SceneObj) : committedOf (committedOf l) = committedOf l := by
  unfold committedOf
  rw [List.filter_filter]
  apply List.filter_congr
  intro o _
  cases o.isCommitted <;> rfl

theorem committedOf_append (l r : List SceneObj) :
    committedOf (l ++ r) = committedOf l ++ committedOf r := List.filter_append _ _

theorem inv_init (t : Tool) (c : Option Cls) : EngineInv (initState t c) := by
  refine ⟨rfl, by simp [initState], by simp [initState, trackedIds], by simp [initState],
    by simp [initState], by simp [initState, trackedIds], ⟨[], [], rfl, by simp, by simp⟩,
    ?_⟩
  intro _
  exact ⟨rfl, rfl, by simp [initState]⟩

theorem inv_render (s : EngineState) (h : EngineInv s) : EngineInv (applyRender s) := h

theorem inv_switch (s : EngineState) (t : Tool) (c : Option Cls)
    (h : EngineInv s) : EngineInv (applySwitch t c s) := by
  obtain ⟨h1, _h2, _h3, h4, h5, _h6, _h7, _h8⟩ := h
  refine ⟨?_, ?_, ?_, ?_, ?_, ?_, ?_, ?_⟩
  · show (committedOf (committedOf s.canvas)).map SceneObj.oid = s.annos.map EAnn.objId
    rw [committedOf_idem]
    exact h1
  · intro o ho hno
    have := (List.mem_filter.mp ho).2
    rw [hno] at this
    exact absurd this (by simp)
  · intro o _ _
    simp [trackedIds, applySwitch]
  · exact List.Nodup.sublist ((List.filter_sublist _).map SceneObj.oid) h4
  · intro o ho
    exact h5 o (List.mem_of_mem_filter ho)
  · intro i hi
    simp [trackedIds, applySwitch] at hi
  · exact ⟨committedOf s.canvas, [], by simp [applySwitch, committedOf],
      fun o ho => (List.mem_filter.mp ho).2, by simp⟩
  · intro _
    exact ⟨rfl, rfl, fun o ho => (List.mem_filter.mp ho).2⟩

theorem inv_stroke (s : EngineState) (d : List PathCmd)
    (htool : s.tool = Tool.brush) (h : EngineInv s) : EngineInv (applyStrokeDone d s) := by
  obtain ⟨h1, _h2, _h3, h4, h5, _h6, _h7, h8⟩ := h
  have hnp : s.tool ≠ Tool.polygon := by
    rw [htool]
    intro hcon
    cases hcon
  obtain ⟨hpts, hlns, hall⟩ := h8 hnp
  unfold EngineInv trackedIds applyStrokeDone
  simp only
  refine ⟨?_, ?_, ?_, ?_, ?_, ?_, ?_, ?_⟩
  · rw [committedOf_append, List.map_append, List.map_append, h1]
    rfl
  · intro o ho hno
    rcases List.mem_append.mp ho with hc | hc
    · rw [hall o hc] at hno
      cases hno
    · rw [List.mem_singleton.mp hc] at hno
      cases hno
  · intro o _ _
    simp [hpts, hlns]
  · rw [List.map_append]
    refine List.Nodup.append h4 (by simp) ?_
    rw [List.disjoint_left]
    intro a ha hmem
    rcases List.mem_map.mp ha with ⟨o, ho, rfl⟩
    simp at hmem
    have := h5 o ho
    omega
  · intro o ho
    rcases List.mem_append.mp ho with hc | hc
    · have := h5 o hc
      omega
    · rw [List.mem_singleton.mp hc]
      show s.nextId < s.nextId + 1
      omega
  · intro i hi
    simp [hpts, hlns] at hi
  · refine ⟨s.canvas ++ [⟨s.nextId,
      .path d ((hexToRgba ((s.selCls.map Cls.color).getD "#000000".data) alpha035).getD [])⟩],
      [], by simp, ?_, by simp⟩
    intro o ho
    rcases List.mem_append.mp ho with hc | hc
    · exact hall o hc
    · rw [List.mem_singleton.mp hc]
      rfl
  · intro _
    refine ⟨hpts, hlns, ?_⟩
    intro o ho
    rcases List.mem_append.mp ho with hc | hc
    · exact hall o hc
    · rw [List.mem_singleton.mp hc]
      rfl

theorem committedOf_eq_nil (l : List SceneObj) (h : ∀ o ∈ l, o.isCommitted = false) :
    committedOf l = [] := by
  unfold committedOf
  induction l with
  | nil => rfl
  | cons a t ih =>
    rw [List.filter_cons, if_neg (by simp [h a (List.mem_cons_self a t)])]
    exact ih (fun o ho => h o (List.mem_cons_of_mem a ho))

theorem committedOf_eq_self (l : List SceneObj) (h : ∀ o ∈ l, o.isCommitted = true) :
    committedOf l = l := List.filter_eq_self.mpr h

theorem inv_removeAnn (s : EngineState) (i : Nat) (h : EngineInv s) :
    EngineInv (applyRemoveAnn i s) := by
  obtain ⟨h1, h2, h3, h4, h5, h6, h7, h8⟩ := h
  obtain ⟨pre, suf, hcv, hpreC, hsufE⟩ := h7
  have hcom : committedOf s.canvas = pre := by
    rw [hcv, committedOf_append, committedOf_eq_self pre hpreC,
      committedOf_eq_nil suf hsufE, List.append_nil]
  have hlen : pre.length = s.annos.length := by
    have := congrArg List.length h1
    rw [hcom] at this
    simpa using this
  -- the two result components
  have hannos : (applyRemoveAnn i s).annos = s.annos.eraseIdx i :=
    filter_enum_ne_eq_eraseIdx _ _
  have hcanvas : (applyRemoveAnn i s).canvas
      = if i < s.canvas.length then s.canvas.eraseIdx i else s.canvas := rfl
  have htools : (applyRemoveAnn i s).tool = s.tool := rfl
  have hstk1 : (applyRemoveAnn i s).polyPoints = s.polyPoints := rfl
  have hstk2 : (applyRemoveAnn i s).polyLines = s.polyLines := rfl
  have hnid : (applyRemoveAnn i s).nextId = s.nextId := rfl
  -- a canvas decomposition valid in every case
  have hdec : ∃ pre' suf', (applyRemoveAnn i s).canvas = pre' ++ suf'
      ∧ pre'.Sublist pre ∧ suf'.Sublist suf
      ∧ pre' = (if i < pre.length then pre.eraseIdx i else pre)
      ∧ (∀ o ∈ pre', o.isCommitted = true) ∧ (∀ o ∈ suf', o.isCommitted = false) := by
    rw [hcanvas, hcv]
    by_cases hip : i < pre.length
    · have hic : i < (pre ++ suf).length := by
        rw [List.length_append]
        omega
      rw [if_pos hic, List.eraseIdx_append_of_lt_length hip, if_pos hip]
      exact ⟨pre.eraseIdx i, suf, rfl, List.eraseIdx_sublist pre i, List.Sublist.refl suf,
        rfl, fun o ho => hpreC o ((List.eraseIdx_sublist pre i).mem ho),
        hsufE⟩
    · rw [if_neg hip]
      by_cases hic : i < (pre ++ suf).length
      · rw [if_pos hic, List.eraseIdx_append_of_length_le (by omega)]
        exact ⟨pre, suf.eraseIdx (i - pre.length), rfl, List.Sublist.refl pre,
          List.eraseIdx_sublist _ _, rfl, hpreC,
          fun o ho => hsufE o ((List.eraseIdx_sublist _ _).mem ho)⟩
      · rw [if_neg hic]
        exact ⟨pre, suf, rfl, List.Sublist.refl pre, List.Sublist.refl suf, rfl, hpreC, hsufE⟩
  obtain ⟨pre', suf', hcv', hsubP, hsubS, hpre', hpreC', hsufE'⟩ := hdec
  have hsubC : ((applyRemoveAnn i s).canvas).Sublist s.canvas := by
    rw [hcv', hcv]
    exact List.Sublist.append hsubP hsubS
  have hcom' : committedOf ((applyRemoveAnn i s).canvas) = pre' := by
    rw [hcv', committedOf_append, committedOf_eq_self pre' hpreC',
      committedOf_eq_nil suf' hsufE', List.append_nil]
  refine ⟨?_, ?_, ?_, ?_, ?_, ?_, ?_, ?_⟩
  · have h1' : pre.map SceneObj.oid = s.annos.map EAnn.objId := by
      rw [← hcom]
      exact h1
    rw [hcom', hannos, hpre']
    by_cases hip : i < pre.length
    · rw [if_pos hip, map_eraseIdx, map_eraseIdx, h1']
    · rw [if_neg hip, List.eraseIdx_of_length_le (by omega), h1']
  · intro o ho hno
    exact h2 o (hsubC.mem ho) hno
  · intro o ho hoc
    exact h3 o (hsubC.mem ho) hoc
  · exact List.Nodup.sublist (hsubC.map SceneObj.oid) h4
  · intro o ho
    rw [hnid]
    exact h5 o (hsubC.mem ho)
  · intro j hj
    rw [hnid]
    exact h6 j hj
  · exact ⟨pre', suf', hcv', hpreC', hsufE'⟩
  · intro hnp
    rw [htools] at hnp
    obtain ⟨hp, hl, hall⟩ := h8 hnp
    exact ⟨hstk1 ▸ hp, hstk2 ▸ hl, fun o ho => hall o (hsubC.mem ho)⟩

theorem applyPolyClick_none_char (s : EngineState) (x y : ℚ) (hcls : s.selCls = none) :
    applyPolyClick x y s = s := by
  simp [applyPolyClick, hcls]

theorem applyPolyClick_first_char (s : EngineState) (cls : Cls) (x y : ℚ)
    (hcls : s.selCls = some cls) (hempty : s.polyPoints = []) :
    applyPolyClick x y s = { s with
      canvas := s.canvas
        ++ [⟨s.nextId, .circle x y ((hexToRgba cls.color alpha08).getD []) "#ffffff".data⟩]
      polyPoints := [⟨s.nextId, .circle x y ((hexToRgba cls.color alpha08).getD []) "#ffffff".data⟩]
      nextId := s.nextId + 1 } := by
  simp only [applyPolyClick, hcls, hempty, List.nil_append]
  rw [if_neg (by simp), if_neg (by simp)]

theorem applyPolyClick_more_char (s : EngineState) (cls : Cls) (x y : ℚ)
    (hcls : s.selCls = some cls) (hne : s.polyPoints ≠ [])
    (hnoclose : ¬(2 ≤ s.polyPoints.length ∧
      (x - (s.polyPoints.getD 0 defaultObj).cLeft)
        * (x - (s.polyPoints.getD 0 defaultObj).cLeft)
      + (y - (s.polyPoints.getD 0 defaultObj).cTop)
        * (y - (s.polyPoints.getD 0 defaultObj).cTop) < 100)) :
    ∃ a b u v st, applyPolyClick x y s = { s with
      canvas := (s.canvas
          ++ [⟨s.nextId, .circle x y ((hexToRgba cls.color alpha08).getD []) "#ffffff".data⟩])
        ++ [⟨s.nextId + 1, .line a b u v st⟩]
      polyPoints := s.polyPoints
        ++ [⟨s.nextId, .circle x y ((hexToRgba cls.color alpha08).getD []) "#ffffff".data⟩]
      polyLines := s.polyLines ++ [⟨s.nextId + 1, .line a b u v st⟩]
      nextId := s.nextId + 2 } := by
  have h0 : 0 < s.polyPoints.length := List.length_pos.mpr hne
  have hgetD : ∀ (c : SceneObj),
      ((s.polyPoints ++ [c]).getD 0 defaultObj) = s.polyPoints.getD 0 defaultObj :=
    fun c => List.getD_append _ _ _ 0 h0
  simp only [applyPolyClick, hcls]
  by_cases h2 : 2 ≤ s.polyPoints.length
  · have hnd : ¬((x - (s.polyPoints.getD 0 defaultObj).cLeft)
          * (x - (s.polyPoints.getD 0 defaultObj).cLeft)
        + (y - (s.polyPoints.getD 0 defaultObj).cTop)
          * (y - (s.polyPoints.getD 0 defaultObj).cTop) < 100) :=
      fun hd => hnoclose ⟨h2, hd⟩
    rw [if_pos (by simp only [List.length_append, List.length_cons, List.length_nil]; omega)]
    rw [hgetD, if_neg hnd]
    rw [if_pos (by simp only [List.length_append, List.length_cons, List.length_nil]; omega)]
    exact ⟨_, _, _, _, _, rfl⟩
  · rw [if_neg (by simp only [List.length_append, List.length_cons, List.length_nil]; omega)]
    rw [if_pos (by simp only [List.length_append, List.length_cons, List.length_nil]; omega)]
    exact ⟨_, _, _, _, _, rfl⟩

theorem mem_map_oid_append (A B : List SceneObj) (i : Nat) :
    i ∈ (A ++ B).map SceneObj.oid ↔ i ∈ A.map SceneObj.oid ∨ i ∈ B.map SceneObj.oid := by
  rw [List.map_append, List.mem_append]

theorem inv_polyClick (s : EngineState) (x y : ℚ)
    (htool : s.tool = Tool.polygon) (h : EngineInv s) : EngineInv (applyPolyClick x y s) := by
  cases hcls : s.selCls with
  | none =>
    rw [applyPolyClick_none_char s x y hcls]
    exact h
  | some cls =>
    obtain ⟨h1, h2, h3, h4, h5, h6, h7, h8⟩ := h
    obtain ⟨pre, suf, hcv, hpreC, hsufE⟩ := h7
    by_cases hclose : 2 ≤ s.polyPoints.length ∧
        (x - (s.polyPoints.getD 0 defaultObj).cLeft)
          * (x - (s.polyPoints.getD 0 defaultObj).cLeft)
        + (y - (s.polyPoints.getD 0 defaultObj).cTop)
          * (y - (s.polyPoints.getD 0 defaultObj).cTop) < 100
    · rw [applyPolyClick_close_char s cls x y hcls hclose.1 hclose.2 h4 h2 h3 h5 h6]
      unfold EngineInv trackedIds
      simp only
      refine ⟨?_, ?_, ?_, ?_, ?_, ?_, ?_, ?_⟩
      · rw [committedOf_append, committedOf_idem, List.map_append, List.map_append, h1]
        rfl
      · intro o ho hno
        rcases List.mem_append.mp ho with hc | hc
        · rw [(List.mem_filter.mp hc).2] at hno
          cases hno
        · rw [List.mem_singleton.mp hc] at hno
          cases hno
      · intro o _ _
        simp
      · rw [List.map_append]
        refine List.Nodup.append
          (List.Nodup.sublist ((List.filter_sublist _).map _) h4) (by simp) ?_
        rw [List.disjoint_left]
        intro a ha hmem
        rcases List.mem_map.mp ha with ⟨o, ho, rfl⟩
        have := h5 o (List.mem_of_mem_filter ho)
        simp at hmem
        omega
      · intro o ho
        rcases List.mem_append.mp ho with hc | hc
        · have := h5 o (List.mem_of_mem_filter hc)
          show o.oid < s.nextId + 4
          omega
        · rw [List.mem_singleton.mp hc]
          show s.nextId + 3 < s.nextId + 4
          omega
      · intro i hi
        simp at hi
      · refine ⟨committedOf s.canvas
          ++ [⟨s.nextId + 3, .polygon (s.polyPoints.map (fun p => (p.cLeft, p.cTop)))
                ((hexToRgba cls.color alpha035).getD [])
                ((hexToRgba cls.color alpha08).getD [])⟩], [], by simp, ?_, by simp⟩
        intro o ho
        rcases List.mem_append.mp ho with hc | hc
        · exact (List.mem_filter.mp hc).2
        · rw [List.mem_singleton.mp hc]
          rfl
      · intro hnp
        exact absurd htool hnp
    · by_cases hempty : s.polyPoints = []
      · rw [applyPolyClick_first_char s cls x y hcls hempty]
        unfold EngineInv trackedIds
        simp only
        refine ⟨?_, ?_, ?_, ?_, ?_, ?_, ?_, ?_⟩
        · rw [committedOf_append]
          have hc1 : committedOf [(⟨s.nextId,
              .circle x y ((hexToRgba cls.color alpha08).getD []) "#ffffff".data⟩ : SceneObj)]
              = [] := rfl
          rw [hc1, List.append_nil]
          exact h1
        · intro o ho hno
          rcases List.mem_append.mp ho with hc | hc
          · have hm : o.oid ∈ (s.polyPoints ++ s.polyLines).map SceneObj.oid := h2 o hc hno
            rw [hempty, List.nil_append] at hm
            rw [mem_map_oid_append]
            right
            exact hm
          · rw [List.mem_singleton.mp hc]
            rw [mem_map_oid_append]
            left
            simp
        · intro o ho hoc
          rcases List.mem_append.mp ho with hc | hc
          · have hnm : o.oid ∉ (s.polyPoints ++ s.polyLines).map SceneObj.oid := h3 o hc hoc
            rw [hempty, List.nil_append] at hnm
            have hlt := h5 o hc
            intro hmem
            rcases (mem_map_oid_append _ _ _).mp hmem with hm | hm
            · simp at hm
              omega
            · exact hnm hm
          · rw [List.mem_singleton.mp hc] at hoc
            simp [SceneObj.isCommitted, Shape.isCommittedShape] at hoc
        · rw [List.map_append]
          refine List.Nodup.append h4 (by simp) ?_
          rw [List.disjoint_left]
          intro a ha hmem
          rcases List.mem_map.mp ha with ⟨o, ho, rfl⟩
          have := h5 o ho
          simp at hmem
          omega
        · intro o ho
          rcases List.mem_append.mp ho with hc | hc
          · have := h5 o hc
            show o.oid < s.nextId + 1
            omega
          · rw [List.mem_singleton.mp hc]
            show s.nextId < s.nextId + 1
            omega
        · intro i hi
          rcases (mem_map_oid_append _ _ _).mp hi with hm | hm
          · simp at hm
            omega
          · have hm' : i ∈ (s.polyPoints ++ s.polyLines).map SceneObj.oid := by
              rw [hempty, List.nil_append]
              exact hm
            have := h6 i hm'
            omega
        · refine ⟨pre, suf ++ [⟨s.nextId,
            .circle x y ((hexToRgba cls.color alpha08).getD []) "#ffffff".data⟩],
            by rw [hcv, List.append_assoc], hpreC, ?_⟩
          intro o ho
          rcases List.mem_append.mp ho with hc | hc
          · exact hsufE o hc
          · rw [List.mem_singleton.mp hc]
            rfl
        · intro hnp
          exact absurd htool hnp
      · obtain ⟨a, b, u, v, st, heq⟩ := applyPolyClick_more_char s cls x y hcls hempty hclose
        rw [heq]
        unfold EngineInv trackedIds
        simp only
        refine ⟨?_, ?_, ?_, ?_, ?_, ?_, ?_, ?_⟩
        · rw [committedOf_append, committedOf_append]
          have hc1 : committedOf [(⟨s.nextId,
              .circle x y ((hexToRgba cls.color alpha08).getD []) "#ffffff".data⟩ : SceneObj)]
              = [] := rfl
          have hc2 : committedOf [(⟨s.nextId + 1, .line a b u v st⟩ : SceneObj)] = [] := rfl
          rw [hc1, hc2, List.append_nil, List.append_nil]
          exact h1
        · intro o ho hno
          rcases List.mem_append.mp ho with hc | hc
          · rcases List.mem_append.mp hc with hc2 | hc2
            · have hm : o.oid ∈ (s.polyPoints ++ s.polyLines).map SceneObj.oid := h2 o hc2 hno
              rw [mem_map_oid_append] at hm
              rw [mem_map_oid_append]
              rcases hm with hm | hm
              · left
                rw [mem_map_oid_append]
                left
                exact hm
              · right
                rw [mem_map_oid_append]
                left
                exact hm
            · rw [List.mem_singleton.mp hc2]
              rw [mem_map_oid_append]
              left
              rw [mem_map_oid_append]
              right
              simp
          · rw [List.mem_singleton.mp hc]
            rw [mem_map_oid_append]
            right
            rw [mem_map_oid_append]
            right
            simp
        · intro o ho hoc
          rcases List.mem_append.mp ho with hc | hc
          · rcases List.mem_append.mp hc with hc2 | hc2
            · have hnm : o.oid ∉ (s.polyPoints ++ s.polyLines).map SceneObj.oid :=
                h3 o hc2 hoc
              have hlt := h5 o hc2
              intro hmem
              rcases (mem_map_oid_append _ _ _).mp hmem with hm | hm
              · rcases (mem_map_oid_append _ _ _).mp hm with hm2 | hm2
                · exact hnm ((mem_map_oid_append _ _ _).mpr (Or.inl hm2))
                · simp at hm2
                  omega
              · rcases (mem_map_oid_append _ _ _).mp hm with hm2 | hm2
                · exact hnm ((mem_map_oid_append _ _ _).mpr (Or.inr hm2))
                · simp at hm2
                  omega
            · rw [List.mem_singleton.mp hc2] at hoc
              simp [SceneObj.isCommitted, Shape.isCommittedShape] at hoc
          · rw [List.mem_singleton.mp hc] at hoc
            simp [SceneObj.isCommitted, Shape.isCommittedShape] at hoc
        · rw [List.append_assoc, List.map_append]
          refine List.Nodup.append h4 (by simp) ?_
          rw [List.disjoint_left]
          intro j hj hmem
          rcases List.mem_map.mp hj with ⟨o, ho, rfl⟩
          have := h5 o ho
          simp at hmem
          rcases hmem with hm | hm <;> omega
        · intro o ho
          rcases List.mem_append.mp ho with hc | hc
          · rcases List.mem_append.mp hc with hc2 | hc2
            · have := h5 o hc2
              show o.oid < s.nextId + 2
              omega
            · rw [List.mem_singleton.mp hc2]
              show s.nextId < s.nextId + 2
              omega
          · rw [List.mem_singleton.mp hc]
            show s.nextId + 1 < s.nextId + 2
            omega
        · intro i hi
          rcases (mem_map_oid_append _ _ _).mp hi with hm | hm
          · rcases (mem_map_oid_append _ _ _).mp hm with hm2 | hm2
            · have := h6 i ((mem_map_oid_append _ _ _).mpr (Or.inl hm2))
              omega
            · simp at hm2
              omega
          · rcases (mem_map_oid_append _ _ _).mp hm with hm2 | hm2
            · have := h6 i ((mem_map_oid_append _ _ _).mpr (Or.inr hm2))
              omega
            · simp at hm2
              omega
        · refine ⟨pre, (suf ++ [⟨s.nextId,
            .circle x y ((hexToRgba cls.color alpha08).getD []) "#ffffff".data⟩])
              ++ [⟨s.nextId + 1, .line a b u v st⟩],
            by rw [hcv]; simp [List.append_assoc], hpreC, ?_⟩
          intro o ho
          rcases List.mem_append.mp ho with hc | hc
          · rcases List.mem_append.mp hc with hc2 | hc2
            · exact hsufE o hc2
            · rw [List.mem_singleton.mp hc2]
              rfl
          · rw [List.mem_singleton.mp hc]
            rfl
        · intro hnp
          exact absurd htool hnp

theorem reachesNU_inv (s : EngineState) (h : ReachesNU s) : EngineInv s := by
  induction h with
  | init t c => exact inv_init t c
  | step _ hstep ih =>
    cases hstep with
    | render => exact inv_render _ ih
    | strokeDone d htool => exact inv_stroke _ d htool ih
    | polyClick x y htool => exact inv_polyClick _ x y htool ih
    | removeAnn i => exact inv_removeAnn _ i ih
    | switchTool t c => exact inv_switch _ t c ih

/-- **C1 (amended).**  In every state reachable through stroke commits,
polygon commits, per-annotation removals, tool/class switches and render
passes — but no `undo` — the annotation list and the list of committed
canvas objects have the same length, and the annotation at index `i`
references exactly the committed canvas object at index `i`.  (An `undo`
call can break this correspondence: see the counterexample.) -/
theorem C1_amended_invariant_without_undo (s : EngineState) (h : ReachesNU s) :
    s.annos.length = (committedOf s.canvas).length ∧
    ∀ i : Nat, (s.annos.get? i).map EAnn.objId
      = ((committedOf s.canvas).get? i).map SceneObj.oid := by
  have h1 := (reachesNU_inv s h).1
  constructor
  · have := congrArg List.length h1
    simpa using this.symm
  · intro i
    have := congrArg (fun l => l.get? i) h1
    simp only at this
    rw [List.get?_map, List.get?_map] at this
    exact this.symm

/-- Closed instance of `C1_amended_invariant_without_undo` after one
committed stroke. -/
theorem C1_amended_witness :
    cexState1.annos.length = (committedOf cexState1.canvas).length ∧
    (cexState1.annos.get? 0).map EAnn.objId
      = ((committedOf cexState1.canvas).get? 0).map SceneObj.oid := by
  have h := C1_amended_invariant_without_undo cexState1
    (ReachesNU.step (ReachesNU.step (ReachesNU.init Tool.brush (some cexCls))
      (StepNU.strokeDone _ cexPath rfl)) (StepNU.render _))
  exact ⟨h.1, h.2 0⟩

/-- **C1 (counterexample).**  The invariant does not survive `undo`: after
committing one stroke and calling `undo`, the canvas is restored to the
empty snapshot but the annotation list still holds the stroke's
annotation, so the two lists have different lengths in a reachable
state. -/
theorem C1_counterexample_undo_breaks_invariant :
    Reaches cexState2 ∧
    cexState2.annos.length ≠ (committedOf cexState2.canvas).length := by
  constructor
  · exact Reaches.step (Reaches.step (Reaches.step (Reaches.init Tool.brush (some cexCls))
      (Step.ofNU (StepNU.strokeDone _ cexPath rfl)))
      (Step.ofNU (StepNU.render _))) (Step.undo _)
  · decide

/-- **C3.**  In the polygon tool with a selected class, in any state
reached without `undo`: once at least three vertices have been placed, a
pointer-down whose squared distance to the first vertex is below `10² `
closes the polygon — the canvas afterwards consists of the previously
committed objects plus exactly one new polygon built from the tracked
vertex coordinates (the triggering click contributes no vertex), no
ephemeral point marker or guide line survives, and exactly one annotation
tagged with the selected class is appended. -/
theorem C3_polygon_auto_close (s : EngineState) (cls : Cls) (x y : ℚ)
    (hreach : ReachesNU s)
    (htool : s.tool = Tool.polygon)
    (hcls : s.selCls = some cls)
    (hn : 3 ≤ s.polyPoints.length)
    (hdist : (x - (s.polyPoints.getD 0 defaultObj).cLeft)
           * (x - (s.polyPoints.getD 0 defaultObj).cLeft)
         + (y - (s.polyPoints.getD 0 defaultObj).cTop)
           * (y - (s.polyPoints.getD 0 defaultObj).cTop) < 100) :
    ((applyPolyClick x y s).canvas = committedOf s.canvas
      ++ [⟨s.nextId + 3, .polygon (s.polyPoints.map (fun p => (p.cLeft, p.cTop)))
            ((hexToRgba cls.color alpha035).getD [])
            ((hexToRgba cls.color alpha08).getD [])⟩]) ∧
    (∀ o ∈ (applyPolyClick x y s).canvas, o.isCommitted = true) ∧
    ((applyPolyClick x y s).annos
      = s.annos ++ [⟨AnnType.polygon, some cls, s.nextId + 3⟩]) := by
  obtain ⟨_, h2, h3, h4, h5, h6, _, _⟩ := reachesNU_inv s hreach
  have hchar := applyPolyClick_close_char s cls x y hcls (by omega) hdist h4 h2 h3 h5 h6
  rw [hchar]
  refine ⟨rfl, ?_, rfl⟩
  intro o ho
  rcases List.mem_append.mp ho with hc | hc
  · exact (List.mem_filter.mp hc).2
  · rw [List.mem_singleton.mp hc]
    rfl

/-- Closed instance of `C3_polygon_auto_close`: a three-vertex session
(0,0), (20,0), (20,20) closed by a click at (1,1), within distance 10 of
the first vertex. -/
theorem C3_polygon_auto_close_witness :
    ((applyPolyClick 1 1 polyS3).canvas = committedOf polyS3.canvas
      ++ [⟨polyS3.nextId + 3, .polygon (polyS3.polyPoints.map (fun p => (p.cLeft, p.cTop)))
            ((hexToRgba cexCls.color alpha035).getD [])
            ((hexToRgba cexCls.color alpha08).getD [])⟩]) ∧
    ((applyPolyClick 1 1 polyS3).annos
      = polyS3.annos ++ [⟨AnnType.polygon, some cexCls, polyS3.nextId + 3⟩]) := by
  have hreach : ReachesNU polyS3 :=
    ReachesNU.step (ReachesNU.step (ReachesNU.step
      (ReachesNU.init Tool.polygon (some cexCls))
      (StepNU.polyClick _ 0 0 rfl)) (StepNU.polyClick _ 20 0 rfl))
      (StepNU.polyClick _ 20 20 rfl)
  have e1 : polyS1 = { polyS0 with
      canvas := polyS0.canvas
        ++ [⟨polyS0.nextId, .circle 0 0 ((hexToRgba cexCls.color alpha08).getD []) "#ffffff".data⟩]
      polyPoints := [⟨polyS0.nextId, .circle 0 0 ((hexToRgba cexCls.color alpha08).getD []) "#ffffff".data⟩]
      nextId := polyS0.nextId + 1 } :=
    applyPolyClick_first_char polyS0 cexCls 0 0 rfl rfl
  have hpp1 : polyS1.polyPoints
      = [⟨0, .circle 0 0 ((hexToRgba cexCls.color alpha08).getD []) "#ffffff".data⟩] := by
    rw [e1]
    rfl
  have hnid1 : polyS1.nextId = 1 := by
    rw [e1]
    rfl
  have hsel1 : polyS1.selCls = some cexCls := by
    rw [e1]
    rfl
  obtain ⟨a2, b2, u2, v2, st2, e2⟩ := applyPolyClick_more_char polyS1 cexCls 20 0 hsel1
    (by rw [hpp1]; simp)
    (by
      intro hcon
      rw [hpp1] at hcon
      simp at hcon)
  have e2c : polyS2 = { polyS1 with
      canvas := (polyS1.canvas
          ++ [⟨polyS1.nextId, .circle 20 0 ((hexToRgba cexCls.color alpha08).getD []) "#ffffff".data⟩])
        ++ [⟨polyS1.nextId + 1, .line a2 b2 u2 v2 st2⟩]
      polyPoints := polyS1.polyPoints
        ++ [⟨polyS1.nextId, .circle 20 0 ((hexToRgba cexCls.color alpha08).getD []) "#ffffff".data⟩]
      polyLines := polyS1.polyLines ++ [⟨polyS1.nextId + 1, .line a2 b2 u2 v2 st2⟩]
      nextId := polyS1.nextId + 2 } := e2
  have hpp2 : polyS2.polyPoints
      = [⟨0, .circle 0 0 ((hexToRgba cexCls.color alpha08).getD []) "#ffffff".data⟩,
         ⟨1, .circle 20 0 ((hexToRgba cexCls.color alpha08).getD []) "#ffffff".data⟩] := by
    rw [e2c]
    show polyS1.polyPoints ++ [⟨polyS1.nextId, _⟩] = _
    rw [hpp1, hnid1]
    rfl
  have hnid2 : polyS2.nextId = 3 := by
    rw [e2c]
    show polyS1.nextId + 2 = 3
    rw [hnid1]
  have hsel2 : polyS2.selCls = some cexCls := by
    rw [e2c]
    show polyS1.selCls = some cexCls
    exact hsel1
  obtain ⟨a3, b3, u3, v3, st3, e3⟩ := applyPolyClick_more_char polyS2 cexCls 20 20 hsel2
    (by rw [hpp2]; simp)
    (by
      intro hcon
      obtain ⟨_, hd⟩ := hcon
      rw [hpp2] at hd
      simp [SceneObj.cLeft, SceneObj.cTop] at hd
      norm_num at hd)
  have e3c : polyS3 = { polyS2 with
      canvas := (polyS2.canvas
          ++ [⟨polyS2.nextId, .circle 20 20 ((hexToRgba cexCls.color alpha08).getD []) "#ffffff".data⟩])
        ++ [⟨polyS2.nextId + 1, .line a3 b3 u3 v3 st3⟩]
      polyPoints := polyS2.polyPoints
        ++ [⟨polyS2.nextId, .circle 20 20 ((hexToRgba cexCls.color alpha08).getD []) "#ffffff".data⟩]
      polyLines := polyS2.polyLines ++ [⟨polyS2.nextId + 1, .line a3 b3 u3 v3 st3⟩]
      nextId := polyS2.nextId + 2 } := e3
  have hpp3 : polyS3.polyPoints
      = [⟨0, .circle 0 0 ((hexToRgba cexCls.color alpha08).getD []) "#ffffff".data⟩,
         ⟨1, .circle 20 0 ((hexToRgba cexCls.color alpha08).getD []) "#ffffff".data⟩,
         ⟨3, .circle 20 20 ((hexToRgba cexCls.color alpha08).getD []) "#ffffff".data⟩] := by
    rw [e3c]
    show polyS2.polyPoints ++ [⟨polyS2.nextId, _⟩] = _
    rw [hpp2, hnid2]
    rfl
  have htool3 : polyS3.tool = Tool.polygon := by
    rw [e3c]
    show polyS2.tool = Tool.polygon
    rw [e2c]
    show polyS1.tool = Tool.polygon
    rw [e1]
    rfl
  have hsel3 : polyS3.selCls = some cexCls := by
    rw [e3c]
    show polyS2.selCls = some cexCls
    exact hsel2
  obtain ⟨hc, _, ha⟩ := C3_polygon_auto_close polyS3 cexCls 1 1 hreach htool3 hsel3
    (by rw [hpp3]; simp)
    (by
      rw [hpp3]
      simp [SceneObj.cLeft, SceneObj.cTop]
      norm_num)
  exact ⟨hc, ha⟩

theorem flatMap_eq_nil_of_forall {α β : Type} (l : List α) (f : α → List β)
    (h : ∀ x ∈ l, f x = []) : l.flatMap f = [] := by
  induction l with
  | nil => rfl
  | cons a t ih =>
    rw [List.flatMap_cons, h a (List.mem_cons_self a t), List.nil_append]
    exact ih (fun x hx => h x (List.mem_cons_of_mem a hx))


theorem C8_bbox_general (fs : List (List Char × JValue)) (as : List JValue) (i : Nat)
    (akvs : List (List Char × JValue)) (bs : List JValue)
    (hanns : lookupField fs "annotations".data = some (.arr as))
    (hget : as.get? i = some (.obj akvs))
    (hbb : lookupField akvs "bbox".data = some (.arr bs))
    (hall : ∀ b ∈ bs, ∃ q, b = JValue.num q)
    (hlen : bs.length ≠ 4) :
    ∃ errs, validateCOCO (.obj fs) = VResult.failed errs ∧
      ∃ e ∈ errs, e.path
        = [PathPart.key "annotations".data, PathPart.idx i, PathPart.key "bbox".data] := by
  have hnums : ∀ (p3 : List PathPart),
      bs.enum.flatMap (fun p => checkNumber (p3 ++ [.idx p.1]) p.2) = [] := by
    intro p3
    apply flatMap_eq_nil_of_forall
    intro p hp
    have hmem : p.2 ∈ bs := by
      have := List.mem_enum_iff_get?.mp hp
      exact List.get?_mem this
    obtain ⟨q, hq⟩ := hall p.2 hmem
    rw [hq]
    rfl
  -- the issue produced by the bbox length check
  set path3 : List PathPart :=
    [PathPart.key "annotations".data, PathPart.idx i, PathPart.key "bbox".data] with hpath3
  have hbbox : ∃ e : ZIssue, e.path = path3 ∧
      ∀ (p3 : List PathPart), p3 = path3 → e ∈ checkBbox p3 (.arr bs) := by
    rcases Nat.lt_or_ge bs.length 4 with hlt | hge
    · refine ⟨⟨path3, "too_small".data⟩, rfl, ?_⟩
      intro p3 hp3
      subst hp3
      have hred : checkBbox path3 (.arr bs)
          = (bs.enum.flatMap fun p => checkNumber (path3 ++ [PathPart.idx p.1]) p.2)
            ++ (if bs.length < 4 then [⟨path3, "too_small".data⟩]
                else if bs.length > 4 then [⟨path3, "too_big".data⟩] else []) := rfl
      rw [hred, hnums, List.nil_append, if_pos hlt]
      exact List.mem_singleton.mpr rfl
    · have hgt : bs.length > 4 := by omega
      refine ⟨⟨path3, "too_big".data⟩, rfl, ?_⟩
      intro p3 hp3
      subst hp3
      have hred : checkBbox path3 (.arr bs)
          = (bs.enum.flatMap fun p => checkNumber (path3 ++ [PathPart.idx p.1]) p.2)
            ++ (if bs.length < 4 then [⟨path3, "too_small".data⟩]
                else if bs.length > 4 then [⟨path3, "too_big".data⟩] else []) := rfl
      rw [hred, hnums, List.nil_append, if_neg (by omega), if_pos hgt]
      exact List.mem_singleton.mpr rfl
  obtain ⟨e, hepath, hein⟩ := hbbox
  have hA5 : e ∈ checkField akvs
      (([] ++ [PathPart.key "annotations".data]) ++ [PathPart.idx i])
      "bbox".data checkBbox := by
    unfold checkField
    rw [hbb]
    exact hein _ rfl
  have hAnn : e ∈ checkAnnObj (([] ++ [PathPart.key "annotations".data]) ++ [PathPart.idx i])
      (.obj akvs) := by
    unfold checkAnnObj
    simp only [List.mem_append]
    exact Or.inl (Or.inl (Or.inr hA5))
  have hF4 : e ∈ checkField fs [] "annotations".data (checkArray checkAnnObj) := by
    unfold checkField
    rw [hanns]
    unfold checkArray
    exact List.mem_flatMap.mpr ⟨(i, .obj akvs), List.mem_enum_iff_get?.mpr hget, hAnn⟩
  have hTop : e ∈ checkCoco [] (.obj fs) := by
    unfold checkCoco
    simp only [List.mem_append]
    exact Or.inl (Or.inr hF4)
  refine ⟨checkCoco [] (.obj fs), ?_, e, hTop, hepath⟩
  unfold validateCOCO
  rw [if_neg (List.ne_nil_of_mem hTop)]

/-- **C8.**  The validator is total and structural: for every candidate
document it returns a success or a structured, non-empty failure and never
throws; it performs no cross-reference checks (a document whose
annotation `image_id` matches no declared image still validates); a
failure reports every violated field, not only the first (two independent
violations both appear in the error list); and an annotation whose `bbox`
is an array of numbers of length other than 4 is reported as a violation
at that bbox's path. -/
theorem C8_validator_total_structural :
    (∀ d : JValue, validateCOCO d = VResult.ok
        ∨ ∃ errs, validateCOCO d = VResult.failed errs ∧ errs ≠ []) ∧
    validateCOCO crossRefDoc = VResult.ok ∧
    (∃ errs, validateCOCO dualViolationDoc = VResult.failed errs ∧
      (⟨[.key "info".data, .key "year".data], "invalid_type_number".data⟩ : ZIssue) ∈ errs ∧
      (⟨[.key "categories".data, .idx 0, .key "id".data],
        "invalid_type_number".data⟩ : ZIssue) ∈ errs) ∧
    (∀ (fs : List (List Char × JValue)) (as : List JValue) (i : Nat)
        (akvs : List (List Char × JValue)) (bs : List JValue),
      lookupField fs "annotations".data = some (.arr as) →
      as.get? i = some (.obj akvs) →
      lookupField akvs "bbox".data = some (.arr bs) →
      (∀ b ∈ bs, ∃ q, b = JValue.num q) →
      bs.length ≠ 4 →
      ∃ errs, validateCOCO (.obj fs) = VResult.failed errs ∧
        ∃ e ∈ errs, e.path
          = [PathPart.key "annotations".data, PathPart.idx i,
             PathPart.key "bbox".data]) := by
  refine ⟨?_, by decide,
    ⟨checkCoco [] dualViolationDoc, by decide, by decide, by decide⟩, ?_⟩
  · intro d
    by_cases h : checkCoco [] d = []
    · left
      unfold validateCOCO
      rw [if_pos h]
    · right
      refine ⟨checkCoco [] d, ?_, h⟩
      unfold validateCOCO
      rw [if_neg h]
  · intro fs as i akvs bs hanns hget hbb hall hlen
    exact C8_bbox_general fs as i akvs bs hanns hget hbb hall hlen

/-- Closed instance of `C8_validator_total_structural`: a document whose
only annotation has a 1-element numeric `bbox` fails with an issue at
that bbox's path. -/
theorem C8_validator_witness :
    ∃ errs, validateCOCO (.obj [("annotations".data,
        .arr [.obj [("bbox".data, .arr [.num 0])]])]) = VResult.failed errs ∧
      ∃ e ∈ errs, e.path
        = [PathPart.key "annotations".data, PathPart.idx 0, PathPart.key "bbox".data] :=
  C8_validator_total_structural.2.2.2
    [("annotations".data, .arr [.obj [("bbox".data, .arr [.num 0])]])]
    [.obj [("bbox".data, .arr [.num 0])]] 0 [("bbox".data, .arr [.num 0])] [.num 0]
    rfl rfl rfl
    (by
      intro b hb
      exact ⟨0, List.mem_singleton.mp hb⟩)
    (by decide)

set_option maxRecDepth 4000

theorem takeWhile_append_stop (p : Char → Bool) :
    ∀ (A : List Char) (x : Char) (R : List Char), A.all p = true → p x = false →
      ((A ++ x :: R).takeWhile p = A ∧ (A ++ x :: R).dropWhile p = x :: R) := by
  intro A
  induction A with
  | nil =>
    intro x R _ hx
    constructor
    · simp [List.takeWhile_cons, hx]
    · simp [List.dropWhile_cons, hx]
  | cons a t ih =>
    intro x R hall hx
    rw [List.all_cons, Bool.and_eq_true] at hall
    have := ih x R hall.2 hx
    constructor
    · simp [List.takeWhile_cons, hall.1, this.1]
    · simp [List.dropWhile_cons, hall.1, this.2]

theorem takeWhile_of_all (p : Char → Bool) :
    ∀ (A : List Char), A.all p = true →
      (A.takeWhile p = A ∧ A.dropWhile p = []) := by
  intro A
  induction A with
  | nil => intro _; exact ⟨rfl, rfl⟩
  | cons a t ih =>
    intro hall
    rw [List.all_cons, Bool.and_eq_true] at hall
    have := ih hall.2
    constructor
    · simp [List.takeWhile_cons, hall.1, this.1]
    · simp [List.dropWhile_cons, hall.1, this.2]

theorem dropWhile_cons_neg (p : Char → Bool) (x : Char) (xs : List Char)
    (hx : p x = false) : (x :: xs).dropWhile p = x :: xs := by
  simp [List.dropWhile_cons, hx]

/-- Decimal rendering of a byte value: nonempty, all digits, 1-3 digits
long, and parsed back by `parseInt(·, 10)` to the same value. -/
theorem natToDec_byte : ∀ n < 256, (natToDec n).all isDigitCh = true
    ∧ natToDec n ≠ [] ∧ (natToDec n).length ≤ 3 ∧ decVal (natToDec n) = n := by
  decide

/-- The valid hex digit characters. -/
theorem mem_hexChars_of_isHexDigitCh (c : Char) (h : isHexDigitCh c = true) :
    c ∈ "0123456789abcdefABCDEF".data := by
  have hofn := Char.ofNat_toNat c
  rw [isHexDigitCh] at h
  simp only [decide_eq_true_eq, Bool.or_eq_true, Bool.and_eq_true, decide_eq_true_eq] at h
  generalize hn : c.toNat = n at h hofn
  rw [← hofn]
  rcases h with ⟨h1, h2⟩ | ⟨h1, h2⟩ | ⟨h1, h2⟩ <;> interval_cases n <;> decide

theorem hexDigitVal_lt_16 (c : Char) (h : isHexDigitCh c = true) : hexDigitVal c < 16 := by
  have m := mem_hexChars_of_isHexDigitCh c h
  have hall : ∀ a ∈ "0123456789abcdefABCDEF".data, hexDigitVal a < 16 := by decide
  exact hall c m

theorem hexByte_roundtrip (c0 c1 : Char)
    (h0 : isHexDigitCh c0 = true) (h1 : isHexDigitCh c1 = true) :
    (padStart2 (natToHex (hexDigitVal c0 * 16 + hexDigitVal c1))).map jsToUpperCh
      = [jsToUpperCh c0, jsToUpperCh c1] := by
  have m0 := mem_hexChars_of_isHexDigitCh c0 h0
  have m1 := mem_hexChars_of_isHexDigitCh c1 h1
  have hall : ∀ a ∈ "0123456789abcdefABCDEF".data, ∀ b ∈ "0123456789abcdefABCDEF".data,
      (padStart2 (natToHex (hexDigitVal a * 16 + hexDigitVal b))).map jsToUpperCh
        = [jsToUpperCh a, jsToUpperCh b] := by decide
  exact hall c0 m0 c1 m1

theorem not_ws_of_digit (c : Char) (h : isDigitCh c = true) : isWsCh c = false := by
  rw [isDigitCh] at h
  simp only [decide_eq_true_eq, Bool.and_eq_true] at h
  rw [isWsCh]
  simp only [Bool.or_eq_true, decide_eq_true_eq, decide_eq_false_iff_not, not_or]
  refine ⟨?_, ?_, ?_, ?_, ?_, ?_⟩ <;> intro hcon
  · subst hcon
    simp at h
  · subst hcon
    simp at h
  · subst hcon
    simp at h
  · subst hcon
    simp at h
  · omega
  · omega

theorem digitCh_toNat (d : Nat) (h : d < 10) : (digitCh d).toNat = 48 + d := by
  interval_cases d <;> decide

theorem digitCh_isDigit (d : Nat) (h : d < 10) : isDigitCh (digitCh d) = true := by
  interval_cases d <;> decide

theorem fracVal_nonneg (ds : List Nat) : 0 ≤ fracVal ds := by
  induction ds with
  | nil => exact le_refl 0
  | cons d t ih =>
    show 0 ≤ ((d : ℚ) + fracVal t) / 10
    positivity

theorem fold_digitCh (ds : List Nat) (h : ds.all (fun d => decide (d < 10)) = true) :
    (ds.map digitCh).foldr (fun c acc => (((c.toNat - 48 : Nat) : ℚ) + acc) / 10) 0
      = fracVal ds := by
  induction ds with
  | nil => rfl
  | cons d t ih =>
    rw [List.all_cons, Bool.and_eq_true] at h
    have hd : d < 10 := by simpa using h.1
    show (((((digitCh d).toNat - 48 : Nat)) : ℚ)
        + (t.map digitCh).foldr (fun c acc => (((c.toNat - 48 : Nat) : ℚ) + acc) / 10) 0) / 10
      = fracVal (d :: t)
    rw [ih h.2, digitCh_toNat d hd]
    have hsub : 48 + d - 48 = d := by omega
    show ((((48 + d - 48 : Nat)) : ℚ) + fracVal t) / 10 = ((d : ℚ) + fracVal t) / 10
    rw [hsub]

theorem all_digit_map_digitCh (ds : List Nat) (h : ds.all (fun d => decide (d < 10)) = true) :
    (ds.map digitCh).all isDigitCh = true := by
  induction ds with
  | nil => rfl
  | cons d t ih =>
    rw [List.all_cons, Bool.and_eq_true] at h
    have hd : d < 10 := by simpa using h.1
    rw [List.map_cons, List.all_cons, digitCh_isDigit d hd, Bool.true_and]
    exact ih h.2

theorem parseFloatQ_digits (d : List Char) (hall : d.all isDigitCh = true)
    (hne : d ≠ []) :
    parseFloatQ d = some ((decVal d : ℚ)) := by
  simp only [parseFloatQ]
  rw [(takeWhile_of_all isDigitCh d hall).1, List.drop_length]
  show (if d = [] then none else some ((decVal d : ℚ))) = some ((decVal d : ℚ))
  rw [if_neg hne]

theorem parseFloatQ_split (d f : List Char) (hall : d.all isDigitCh = true)
    (hne : d ≠ []) (hf : f.all isDigitCh = true) :
    parseFloatQ (d ++ '.' :: f)
      = some ((decVal d : ℚ)
        + f.foldr (fun c acc => (((c.toNat - 48 : Nat) : ℚ) + acc) / 10) 0) := by
  simp only [parseFloatQ]
  rw [(takeWhile_append_stop isDigitCh d '.' f hall (by decide)).1, List.drop_left]
  show (if d = [] ∧ (f.takeWhile isDigitCh) = [] then none
      else some ((decVal d : ℚ)
        + (f.takeWhile isDigitCh).foldr
            (fun c acc => (((c.toNat - 48 : Nat) : ℚ) + acc) / 10) 0))
    = some ((decVal d : ℚ)
        + f.foldr (fun c acc => (((c.toNat - 48 : Nat) : ℚ) + acc) / 10) 0)
  rw [(takeWhile_of_all isDigitCh f hf).1, if_neg (fun h => hne h.1)]

theorem parseFloatQ_renderDec (a : DecNum) (hi : a.intPart < 256)
    (hns : a.sci = false)
    (hd : a.frac.all (fun d => decide (d < 10)) = true) :
    parseFloatQ (renderDec a) = some a.val := by
  obtain ⟨hall, hne, _, hval⟩ := natToDec_byte a.intPart hi
  cases hfr : a.frac with
  | nil =>
    rw [renderDec, if_neg (by simp [hns]), if_pos hfr, parseFloatQ_digits _ hall hne, hval]
    rw [DecNum.val, hfr]
    show some ((a.intPart : ℚ)) = some ((a.intPart : ℚ) + fracVal [])
    rw [show fracVal [] = (0 : ℚ) from rfl, add_zero]
  | cons f fs =>
    rw [renderDec, if_neg (by simp [hns]), if_neg (by rw [hfr]; simp)]
    rw [parseFloatQ_split _ _ hall hne (all_digit_map_digitCh a.frac hd)]
    rw [hval, fold_digitCh a.frac hd]
    rfl

theorem parseChan_digits (n : Nat) (hn : n < 256) (x : Char) (rest : List Char)
    (hx : isDigitCh x = false) :
    parseChan (natToDec n ++ x :: rest) = some (n, x :: rest) := by
  obtain ⟨hall, hne, hlen3, hval⟩ := natToDec_byte n hn
  obtain ⟨hd, tl, hcons⟩ := List.exists_cons_of_ne_nil hne
  have hhd : isDigitCh hd = true := by
    have h2 := hall
    rw [hcons, List.all_cons, Bool.and_eq_true] at h2
    exact h2.1
  simp only [parseChan]
  have hdw : (natToDec n ++ x :: rest).dropWhile isWsCh = natToDec n ++ x :: rest := by
    rw [hcons, List.cons_append]
    exact dropWhile_cons_neg isWsCh hd _ (not_ws_of_digit hd hhd)
  rw [hdw]
  rw [(takeWhile_append_stop isDigitCh (natToDec n) x rest hall hx).1]
  have hlen1 : 1 ≤ (natToDec n).length := by
    rw [hcons]
    simp
  rw [if_pos ⟨hlen1, hlen3⟩, hval, List.drop_left]

theorem parseChan_cons_ws (c : Char) (l : List Char) (h : isWsCh c = true) :
    parseChan (c :: l) = parseChan l := by
  simp only [parseChan]
  rw [List.dropWhile_cons, if_pos h]

theorem all_mono (p q : Char → Bool) (h : ∀ c, p c = true → q c = true) :
    ∀ l : List Char, l.all p = true → l.all q = true := by
  intro l hl
  rw [List.all_eq_true] at hl ⊢
  intro x hx
  exact h x (hl x hx)

theorem renderDec_head_digit (a : DecNum) (hi : a.intPart < 256)
    (hns : a.sci = false) :
    ∃ h t, renderDec a = h :: t ∧ isDigitCh h = true := by
  obtain ⟨hall, hne, _, _⟩ := natToDec_byte a.intPart hi
  obtain ⟨h0, t0, hcons⟩ := List.exists_cons_of_ne_nil hne
  have hd0 : isDigitCh h0 = true := by
    rw [hcons, List.all_cons, Bool.and_eq_true] at hall
    exact hall.1
  unfold renderDec
  rw [if_neg (by simp [hns])]
  by_cases hf : a.frac = []
  · rw [if_pos hf, hcons]
    exact ⟨h0, t0, rfl, hd0⟩
  · rw [if_neg hf, hcons, List.cons_append]
    exact ⟨h0, _, rfl, hd0⟩

theorem renderDec_all_floatchars (a : DecNum) (hi : a.intPart < 256)
    (hns : a.sci = false)
    (hd : a.frac.all (fun d => decide (d < 10)) = true) :
    (renderDec a).all (fun c => isDigitCh c ∨ c = '.') = true := by
  have hmono : ∀ l : List Char, l.all isDigitCh = true →
      l.all (fun c => isDigitCh c ∨ c = '.') = true := by
    refine all_mono _ _ ?_
    intro c hc
    simp [hc]
  obtain ⟨hall, _, _, _⟩ := natToDec_byte a.intPart hi
  unfold renderDec
  rw [if_neg (by simp [hns])]
  by_cases hf : a.frac = []
  · rw [if_pos hf]
    exact hmono _ hall
  · rw [if_neg hf, List.all_append, Bool.and_eq_true]
    refine And.intro (hmono _ hall) ?_
    rw [List.all_cons, Bool.and_eq_true]
    refine And.intro (by decide) ?_
    exact hmono _ (all_digit_map_digitCh a.frac hd)

theorem expectCh_self (c : Char) (l : List Char) : expectCh c (c :: l) = some l := by
  show (if c = c then some l else none) = some l
  rw [if_pos rfl]

theorem jsTrim_wrap (x : Char) (m : List Char) (y : Char)
    (hx : isWsCh x = false) (hy : isWsCh y = false) :
    jsTrim (x :: (m ++ [y])) = x :: (m ++ [y]) := by
  unfold jsTrim
  rw [dropWhile_cons_neg isWsCh x _ hx]
  have hrev : (x :: (m ++ [y])).reverse = y :: (m.reverse ++ [x]) := by simp
  rw [hrev, dropWhile_cons_neg isWsCh y _ hy, ← hrev, List.reverse_reverse]

theorem matchRgba_render (r g b : Nat) (hr : r < 256) (hg : g < 256) (hb : b < 256)
    (a : DecNum) (hai : a.intPart < 256) (hns : a.sci = false)
    (had : a.frac.all (fun d => decide (d < 10)) = true) :
    matchRgba ('r' :: 'g' :: 'b' :: 'a' :: '(' ::
        (natToDec r ++ ',' :: ' ' :: (natToDec g ++ ',' :: ' ' ::
          (natToDec b ++ ',' :: ' ' :: (renderDec a ++ [')'])))))
      = some (r, g, b, some (renderDec a)) := by
  obtain ⟨h0, t0, hrend, hdig0⟩ := renderDec_head_digit a hai hns
  have e1 : parseChan (natToDec r ++ ',' :: ' ' :: (natToDec g ++ ',' :: ' ' ::
      (natToDec b ++ ',' :: ' ' :: (renderDec a ++ [')']))))
      = some (r, ',' :: ' ' :: (natToDec g ++ ',' :: ' ' ::
        (natToDec b ++ ',' :: ' ' :: (renderDec a ++ [')'])))) :=
    parseChan_digits r hr ',' _ (by decide)
  have e2 : parseChan (' ' :: (natToDec g ++ ',' :: ' ' ::
      (natToDec b ++ ',' :: ' ' :: (renderDec a ++ [')']))))
      = some (g, ',' :: ' ' :: (natToDec b ++ ',' :: ' ' :: (renderDec a ++ [')']))) :=
    (parseChan_cons_ws ' ' _ (by decide)).trans (parseChan_digits g hg ',' _ (by decide))
  have e3 : parseChan (' ' :: (natToDec b ++ ',' :: ' ' :: (renderDec a ++ [')'])))
      = some (b, ',' :: ' ' :: (renderDec a ++ [')'])) :=
    (parseChan_cons_ws ' ' _ (by decide)).trans (parseChan_digits b hb ',' _ (by decide))
  have edw : ∀ x : List Char, (',' :: x).dropWhile isWsCh = ',' :: x :=
    fun x => dropWhile_cons_neg isWsCh ',' x (by decide)
  have er10 : (' ' :: (renderDec a ++ [')'])).dropWhile isWsCh = renderDec a ++ [')'] := by
    rw [List.dropWhile_cons, if_pos (by decide), hrend, List.cons_append]
    exact dropWhile_cons_neg isWsCh h0 _ (not_ws_of_digit h0 hdig0)
  have etw : (renderDec a ++ [')']).takeWhile (fun c => isDigitCh c ∨ c = '.')
      = renderDec a :=
    (takeWhile_append_stop _ (renderDec a) ')' [] (renderDec_all_floatchars a hai hns had)
      (by decide)).1
  have ene : renderDec a ≠ [] := by
    rw [hrend]
    exact List.cons_ne_nil h0 t0
  have edrop : (renderDec a ++ [')']).drop (renderDec a).length = [')'] :=
    List.drop_left _ _
  simp only [matchRgba, expectCh_self, e1, edw, e2, e3, er10, etw, edrop]
  rw [if_neg ene]

theorem hexToRgba_eval (c0 c1 c2 c3 c4 c5 : Char) (a : DecNum)
    (hhex : ([c0, c1, c2, c3, c4, c5] : List Char).all isHexDigitCh = true) :
    hexToRgba ('#' :: [c0, c1, c2, c3, c4, c5]) a
      = some ("rgba(".data ++ natToDec (hexDigitVal c0 * 16 + hexDigitVal c1)
          ++ ", ".data ++ natToDec (hexDigitVal c2 * 16 + hexDigitVal c3)
          ++ ", ".data ++ natToDec (hexDigitVal c4 * 16 + hexDigitVal c5)
          ++ ", ".data ++ renderDec a ++ ")".data) := by
  simp only [hexToRgba, List.head?_cons, List.tail_cons]
  rw [if_pos trivial, if_pos (show ([c0, c1, c2, c3, c4, c5] : List Char).length = 6
    ∧ ([c0, c1, c2, c3, c4, c5] : List Char).all isHexDigitCh = true from ⟨rfl, hhex⟩)]
  rfl

theorem exists_six (d : List Char) (h : d.length = 6) :
    ∃ a b c u v w, d = [a, b, c, u, v, w] := by
  rcases d with _ | ⟨a, d⟩
  · simp at h
  rcases d with _ | ⟨b, d⟩
  · simp at h
  rcases d with _ | ⟨c, d⟩
  · simp at h
  rcases d with _ | ⟨u, d⟩
  · simp at h
  rcases d with _ | ⟨v, d⟩
  · simp at h
  rcases d with _ | ⟨w, d⟩
  · simp at h
  have hd : d = [] := by
    simp only [List.length_cons] at h
    have : d.length = 0 := by omega
    exact List.length_eq_zero.mp this
  subst hd
  exact ⟨a, b, c, u, v, w, rfl⟩

/-- Claim C6 (amended): for every valid 6-digit hex color and every alpha
in `[0, 1]` that JS prints in plain decimal notation (zero, or at least
`1e-6`, i.e. not scientific: `a.sci = false`), `rgbaToHex` applied to
`hexToRgba('#' ++ hex, alpha)` recovers the hex color up to letter case
(upper-cased), with an appended alpha byte equal to
`Math.round(alpha * 255)` in uppercase hex.  The restriction is needed:
a positive alpha below `1e-6` is printed in scientific notation, the
rgba regex of `rgbaToHex` then fails to match, and `rgbaToHex` throws
(see the C6 counterexample). -/
theorem C6_color_roundtrip (d : List Char) (a : DecNum)
    (hlen : d.length = 6) (hhex : d.all isHexDigitCh = true)
    (hns : a.sci = false)
    (hfr : a.frac.all (fun x => decide (x < 10)) = true)
    (hval : a.val ≤ 1) :
    (hexToRgba ('#' :: d) a).bind rgbaToHex
      = some (('#' :: d).map jsToUpperCh
          ++ (padStart2 (natToHex (jsRound (a.val * 255)).toNat)).map jsToUpperCh) := by
  obtain ⟨c0, c1, c2, c3, c4, c5, rfl⟩ := exists_six d hlen
  have hh : isHexDigitCh c0 = true ∧ isHexDigitCh c1 = true ∧ isHexDigitCh c2 = true
      ∧ isHexDigitCh c3 = true ∧ isHexDigitCh c4 = true ∧ isHexDigitCh c5 = true := by
    simpa using hhex
  obtain ⟨h0, h1, h2, h3, h4, h5⟩ := hh
  have hr : hexDigitVal c0 * 16 + hexDigitVal c1 < 256 := by
    have g0 := hexDigitVal_lt_16 c0 h0
    have g1 := hexDigitVal_lt_16 c1 h1
    omega
  have hg : hexDigitVal c2 * 16 + hexDigitVal c3 < 256 := by
    have g2 := hexDigitVal_lt_16 c2 h2
    have g3 := hexDigitVal_lt_16 c3 h3
    omega
  have hb : hexDigitVal c4 * 16 + hexDigitVal c5 < 256 := by
    have g4 := hexDigitVal_lt_16 c4 h4
    have g5 := hexDigitVal_lt_16 c5 h5
    omega
  have hfnn : (0 : ℚ) ≤ fracVal a.frac := fracVal_nonneg a.frac
  have hvnn : (0 : ℚ) ≤ a.val := by
    rw [DecNum.val]
    have hc : (0 : ℚ) ≤ (a.intPart : ℚ) := by positivity
    linarith
  have hai : a.intPart < 256 := by
    have hile : (a.intPart : ℚ) ≤ 1 := by
      have hv := hval
      rw [DecNum.val] at hv
      linarith
    have hile2 : a.intPart ≤ 1 := by exact_mod_cast hile
    omega
  rw [hexToRgba_eval c0 c1 c2 c3 c4 c5 a hhex, Option.some_bind]
  have hsh1 : "rgba(".data ++ natToDec (hexDigitVal c0 * 16 + hexDigitVal c1)
      ++ ", ".data ++ natToDec (hexDigitVal c2 * 16 + hexDigitVal c3)
      ++ ", ".data ++ natToDec (hexDigitVal c4 * 16 + hexDigitVal c5)
      ++ ", ".data ++ renderDec a ++ ")".data
      = 'r' :: 'g' :: 'b' :: 'a' :: '(' ::
        (natToDec (hexDigitVal c0 * 16 + hexDigitVal c1) ++ ',' :: ' ' ::
          (natToDec (hexDigitVal c2 * 16 + hexDigitVal c3) ++ ',' :: ' ' ::
            (natToDec (hexDigitVal c4 * 16 + hexDigitVal c5) ++ ',' :: ' ' ::
              (renderDec a ++ [')'])))) := by
    simp
  rw [hsh1]
  have hsh2 : 'r' :: 'g' :: 'b' :: 'a' :: '(' ::
        (natToDec (hexDigitVal c0 * 16 + hexDigitVal c1) ++ ',' :: ' ' ::
          (natToDec (hexDigitVal c2 * 16 + hexDigitVal c3) ++ ',' :: ' ' ::
            (natToDec (hexDigitVal c4 * 16 + hexDigitVal c5) ++ ',' :: ' ' ::
              (renderDec a ++ [')']))))
      = 'r' :: (('g' :: 'b' :: 'a' :: '(' ::
        (natToDec (hexDigitVal c0 * 16 + hexDigitVal c1) ++ ',' :: ' ' ::
          (natToDec (hexDigitVal c2 * 16 + hexDigitVal c3) ++ ',' :: ' ' ::
            (natToDec (hexDigitVal c4 * 16 + hexDigitVal c5) ++ ',' :: ' ' ::
              renderDec a)))) ++ [')']) := by
    simp
  have htrim : jsTrim ('r' :: 'g' :: 'b' :: 'a' :: '(' ::
        (natToDec (hexDigitVal c0 * 16 + hexDigitVal c1) ++ ',' :: ' ' ::
          (natToDec (hexDigitVal c2 * 16 + hexDigitVal c3) ++ ',' :: ' ' ::
            (natToDec (hexDigitVal c4 * 16 + hexDigitVal c5) ++ ',' :: ' ' ::
              (renderDec a ++ [')'])))))
      = 'r' :: 'g' :: 'b' :: 'a' :: '(' ::
        (natToDec (hexDigitVal c0 * 16 + hexDigitVal c1) ++ ',' :: ' ' ::
          (natToDec (hexDigitVal c2 * 16 + hexDigitVal c3) ++ ',' :: ' ' ::
            (natToDec (hexDigitVal c4 * 16 + hexDigitVal c5) ++ ',' :: ' ' ::
              (renderDec a ++ [')'])))) := by
    rw [hsh2]
    exact jsTrim_wrap 'r' _ ')' (by decide) (by decide)
  have hupn : jsToUpperCh '#' = '#' := by decide
  simp only [rgbaToHex, htrim, matchRgba_render _ _ _ hr hg hb a hai hns hfr,
    parseFloatQ_renderDec a hai hns hfr]
  rw [min_eq_right (show hexDigitVal c0 * 16 + hexDigitVal c1 ≤ 255 by omega),
    min_eq_right (show hexDigitVal c2 * 16 + hexDigitVal c3 ≤ 255 by omega),
    min_eq_right (show hexDigitVal c4 * 16 + hexDigitVal c5 ≤ 255 by omega),
    min_eq_right hval, max_eq_right hvnn]
  simp only [jsToUpper, List.map_cons, List.map_append, List.map_nil, hupn,
    hexByte_roundtrip c0 c1 h0 h1, hexByte_roundtrip c2 c3 h2 h3,
    hexByte_roundtrip c4 c5 h4 h5]
  simp

/-- Witness for the amended C6 theorem at the concrete color `#a1b2c3`
and alpha `0.35` (plain-decimal, `sci = false`). -/
theorem C6_color_roundtrip_witness :
    "a1b2c3".data.length = 6
    ∧ (DecNum.mk 0 [3, 5]).sci = false
    ∧ (hexToRgba ('#' :: "a1b2c3".data) ⟨0, [3, 5]⟩).bind rgbaToHex
      = some (('#' :: "a1b2c3".data).map jsToUpperCh
          ++ (padStart2 (natToHex
              (jsRound ((DecNum.mk 0 [3, 5]).val * 255)).toNat)).map jsToUpperCh) :=
  ⟨by decide, by decide,
    C6_color_roundtrip "a1b2c3".data ⟨0, [3, 5]⟩ (by decide) (by decide) (by decide)
      (by decide) (by norm_num [DecNum.val, fracVal])⟩

/-- Counterexample to C6 as stated: the alpha `1e-7` lies in `[0, 1]`
(decimal digits, value positive and at most `1`), but JS prints it in
scientific notation, so the interpolated string is
`rgba(161, 178, 195, 1e-7)`; the rgba regex of `rgbaToHex` fails to
match it (the alpha group admits only digits and dots) and `rgbaToHex`
throws (modelled `none`) instead of returning the round-tripped
color. -/
theorem C6_counterexample_tiny_alpha :
    (0 : ℚ) < (DecNum.mk 0 [0, 0, 0, 0, 0, 0, 1]).val
    ∧ (DecNum.mk 0 [0, 0, 0, 0, 0, 0, 1]).val ≤ 1
    ∧ renderDec (DecNum.mk 0 [0, 0, 0, 0, 0, 0, 1]) = "1e-7".data
    ∧ (hexToRgba ('#' :: "a1b2c3".data)
        (DecNum.mk 0 [0, 0, 0, 0, 0, 0, 1])).bind rgbaToHex = none := by
  refine ⟨by norm_num [DecNum.val, fracVal], by norm_num [DecNum.val, fracVal],
    by decide, by decide⟩

